import Mathlib

/-!
Verification development for the `pool` upload functions
(Cloudflare Pages handlers that commit uploaded artifacts and a JSON
manifest `content.json` into a GitHub repository).

The TypeScript sources are shallowly embedded below:

* `src/unnamed/part_001` - the handler that builds a two-entry change-set
  (artifact + manifest) and calls `commitFilesAtomically`, which drives the
  GitHub git-object pipeline (ref -> commit -> blobs -> tree -> commit ->
  ref update) inside a bounded retry loop.
* `src/unnamed/part_000` (first document) - the handler variant that
  commits the artifact with a Contents-API PUT and updates `content.json`
  from a detached async task; it also contains a straight-line
  `commitFilesAtomically` with the tree entries actually constructed.

Remote HTTP responses are modelled as an oracle (an arbitrary function from
the request sequence number and the request to a response), so theorems
quantifying over oracles cover every possible remote behaviour.  Machine
integers are `Nat`/`Int` (JavaScript number precision loss above 2^53 is
not modelled; all claim-relevant values are small).  JSON numbers are
modelled as integers; non-integer JSON numbers do not occur in any claim.
-/

/-! ## JavaScript value model

`JVal` models the values `JSON.parse` can produce.  Arrays carry, besides
their elements, the expando properties a script may attach to the array
object (`JSON.stringify` ignores these, as in JavaScript).  The element
list `JArr` and the property list `JProps` are mutual inductives (rather
than `List`s) so that every function below is structurally recursive and
evaluable by the kernel. -/

mutual

inductive JVal where
  | null
  | bool (b : Bool)
  | num (n : Int)
  | str (s : String)
  | arr (elems : JArr) (props : JProps)
  | obj (fields : JProps)

inductive JArr where
  | nil
  | cons (v : JVal) (rest : JArr)

inductive JProps where
  | nil
  | cons (k : String) (v : JVal) (rest : JProps)

end

/-- Build an element list from a `List`. -/
def JArr.ofList : List JVal → JArr
  | [] => .nil
  | v :: rest => .cons v (JArr.ofList rest)

/-- Build a property list from a `List` of key-value pairs. -/
def JProps.ofList : List (String × JVal) → JProps
  | [] => .nil
  | (k, v) :: rest => .cons k v (JProps.ofList rest)

/-- First value bound to a key (`undefined`, i.e. `none`, when absent). -/
def JProps.lookup : JProps → String → Option JVal
  | .nil, _ => none
  | .cons k0 v0 rest, k => if k0 = k then some v0 else rest.lookup k

/-- Append two property lists. -/
def JProps.append : JProps → JProps → JProps
  | .nil, q => q
  | .cons k v rest, q => .cons k v (rest.append q)

/-- Replace the value at every binding of a key. -/
def JProps.replace : JProps → String → JVal → JProps
  | .nil, _, _ => .nil
  | .cons k0 v0 rest, k, v =>
    if k0 = k then .cons k v (rest.replace k v)
    else .cons k0 v0 (rest.replace k v)

/-- Errors a modelled script can throw.  `error` is `new Error(msg)`;
`referenceError` / `typeError` are the engine-raised kinds. -/
inductive JsError where
  | error (msg : String)
  | referenceError (msg : String)
  | typeError (msg : String)
  deriving DecidableEq, Repr

/-- Message of a thrown error (`err.message`). -/
def jsErrMessage : JsError → String
  | .error m => m
  | .referenceError m => m
  | .typeError m => m

/-- JavaScript truthiness of a `JVal`. -/
def jsTruthy : JVal → Bool
  | .null => false
  | .bool b => b
  | .num n => n ≠ 0
  | .str s => s ≠ ""
  | .arr _ _ => true
  | .obj _ => true

mutual

/-- `String(v)` for a `JVal` (ECMAScript ToString on JSON-representable
values; integer numbers render in decimal). -/
def jsStringOf : JVal → String
  | .null => "null"
  | .bool b => if b then "true" else "false"
  | .num n => toString n
  | .str s => s
  | .obj _ => "[object Object]"
  | .arr es _ => jsStringArr es

/-- Array `toString`: elements joined with ",", with `null` elements
rendered as the empty string. -/
def jsStringArr : JArr → String
  | .nil => ""
  | .cons v .nil => jsArrElem v
  | .cons v (.cons v2 rest) => jsArrElem v ++ "," ++ jsStringArr (.cons v2 rest)

/-- One element inside an array join. -/
def jsArrElem : JVal → String
  | .null => ""
  | .bool b => if b then "true" else "false"
  | .num n => toString n
  | .str s => s
  | .obj _ => "[object Object]"
  | .arr es _ => jsStringArr es

end

/-- Set a key on a property list the way a JavaScript property write
does: replace in place when present, append when absent. -/
def objSetF (fs : JProps) (k : String) (v : JVal) : JProps :=
  if (fs.lookup k).isSome then fs.replace k v
  else fs.append (.cons k v .nil)

/-- Property read `v[k]` in strict-mode JavaScript: reading on `null`
throws a TypeError, reading a missing property (also on a boxed
primitive) yields `undefined` (modelled as `none`). -/
def jvalGet : JVal → String → Except JsError (Option JVal)
  | .null, k =>
    .error (.typeError ("Cannot read properties of null (reading " ++ k ++ ")"))
  | .obj fs, k => .ok (fs.lookup k)
  | .arr _ props, k => .ok (props.lookup k)
  | _, _ => .ok none

/-- Property write `v[k] = x` in strict-mode JavaScript: writing on `null`
or on a primitive throws a TypeError; arrays accept expando properties. -/
def jvalSet : JVal → String → JVal → Except JsError JVal
  | .obj fs, k, v => .ok (.obj (objSetF fs k v))
  | .arr es props, k, v => .ok (.arr es (objSetF props k v))
  | .null, k, _ =>
    .error (.typeError ("Cannot set properties of null (setting " ++ k ++ ")"))
  | _, k, _ =>
    .error (.typeError ("Cannot create property " ++ k ++ " on a primitive"))

/-! ## `bumpVersion` (src/unnamed/part_001 lines 116-124 and
src/unnamed/part_000 lines 162-170; the two copies are identical) -/

/-- Argument of `bumpVersion`: the manifest's `version` property, which is
`undefined` when absent. -/
inductive BumpArg where
  | undef
  | val (v : JVal)

/-- Characters removed by `String.prototype.trim` (ASCII whitespace,
NBSP, BOM and the Unicode line separators; rarer Zs spaces are not
modelled). -/
def jsWhitespace (c : Char) : Bool :=
  c = ' ' || c = '\t' || c = '\n' || c = '\r' ||
    c.toNat = 11 || c.toNat = 12 || c.toNat = 160 || c.toNat = 65279 ||
    c.toNat = 8232 || c.toNat = 8233

/-- `s.trim()`. -/
def jsTrim (s : String) : String :=
  String.mk
    (((s.data.dropWhile jsWhitespace).reverse.dropWhile jsWhitespace).reverse)

/-- Decimal value of an ASCII digit, `none` for any other character
(the regex class `\d` matches ASCII digits only). -/
def digitVal? (c : Char) : Option Nat :=
  if 48 ≤ c.toNat ∧ c.toNat ≤ 57 then some (c.toNat - 48) else none

/-- Value of a digit run, accumulator style. -/
def parseDigitsAux (acc : Nat) : List Char → Option Nat
  | [] => some acc
  | c :: rest =>
    match digitVal? c with
    | some d => parseDigitsAux (acc * 10 + d) rest
    | none => none

/-- `Number(s)` on a capture of `(\d+)`: the chars must be a non-empty
digit run (precision loss of JavaScript numbers above 2^53 is not
modelled). -/
def parseDigits : List Char → Option Nat
  | [] => none
  | c :: rest => parseDigitsAux 0 (c :: rest)

/-- Split a character list at every `.` (like `String.split` at the
separator). -/
def splitDot : List Char → List (List Char)
  | [] => [[]]
  | '.' :: rest => [] :: splitDot rest
  | c :: rest =>
    match splitDot rest with
    | h :: t => (c :: h) :: t
    | [] => [[c]]

/-- The regex `^(\d+)(?:\.(\d+))?$` of `bumpVersion`, returning the
captured major and optional minor (as numbers, like `Number(m[1])` and
`Number(m[2])` on all-digit captures): the string must be one or two
non-empty digit runs separated by a single dot. -/
def matchVersion (s : String) : Option (Nat × Option Nat) :=
  match splitDot s.data with
  | [a] =>
    match parseDigits a with
    | some maj => some (maj, none)
    | none => none
  | [a, b] =>
    match parseDigits a, parseDigits b with
    | some maj, some mi => some (maj, some mi)
    | _, _ => none
  | _ => none

/-- `bumpVersion` from the sources: `undefined`/`null` give `"1.1"`, else
the value is stringified, trimmed and matched against
`^(\d+)(?:\.(\d+))?$`; no match gives `"1.1"`, a match gives
`"<major>.<minor + 1>"` with a missing minor read as `0`. -/
def bumpVersion : BumpArg → String
  | .undef => "1.1"
  | .val .null => "1.1"
  | .val v =>
    match matchVersion (jsTrim (jsStringOf v)) with
    | none => "1.1"
    | some (major, minorOpt) =>
      toString major ++ "." ++ toString (minorOpt.getD 0 + 1)

/-! ## Sanitizers and the unique-name generator (part_001 lines 172-183;
part_000 has identical copies) -/

/-- `sanitizeFilename`: restrict to `[a-zA-Z0-9._-]`, strip leading
underscores, truncate to 180 chars, fall back to `"file.bin"`. -/
def sanitizeFilename (s : String) : String :=
  let cleaned :=
    ((s.data.map (fun c =>
        if c.isAlphanum || c = '.' || c = '_' || c = '-' then c else '_')
      ).dropWhile (fun c => c = '_')).take 180
  if cleaned = [] then "file.bin" else String.mk cleaned

/-- `sanitizeDirAllowEmpty`: restrict to `[a-zA-Z0-9/_-]`, drop the leading
and trailing run of slashes; the empty string is allowed. -/
def sanitizeDirAllowEmpty (s : String) : String :=
  let cleaned := s.data.map (fun c =>
    if c.isAlphanum || c = '/' || c = '_' || c = '-' then c else '_')
  String.mk
    (((cleaned.dropWhile (fun c => c = '/')).reverse.dropWhile
        (fun c => c = '/')).reverse)

/-- Character for one base-36 digit as in `Number.prototype.toString(36)`:
`0`-`9` then `a`-`z`. -/
def base36Digit (d : Nat) : Char :=
  if d < 10 then Char.ofNat (48 + d) else Char.ofNat (87 + d)

/-- Little-endian base-36 digit list of `n`, with explicit fuel (the fuel
is always given as `n + 1`, which is sufficient). -/
def toB36Aux : Nat → Nat → List Char
  | 0, _ => []
  | _ + 1, 0 => []
  | fuel + 1, n + 1 => base36Digit ((n + 1) % 36) :: toB36Aux fuel ((n + 1) / 36)

/-- `n.toString(36)` for a natural number (the handler applies it to
`Date.now()`). -/
def natToBase36 (n : Nat) : String :=
  if n = 0 then "0" else String.mk (toB36Aux (n + 1) n).reverse

/-- `uniquePrefix` from the sources (the Lean name adds `Of` because the
toolchain here reserves the original spelling): the current time in base
36, a dash, and the 4-character random component
`Math.random().toString(36).slice(2, 6)`.  The time `t` and the drawn
characters `r` are inputs of the model. -/
def uniquePrefixOf (t : Nat) (r : String) : String :=
  natToBase36 t ++ "-" ++ r

/-- `dir ? dir + "/" + name : name`. -/
def dirJoin (dir name : String) : String :=
  if dir = "" then name else dir ++ "/" ++ name

/-! ## JSON serialization and base64 (part_001 lines 128-130, 190-199;
part_000 has an identical `base64FromBytes`) -/

/-- Two lowercase hex digits of a byte-sized value (used for control
character escapes). -/
def hex2 (n : Nat) : String :=
  String.mk [base36Digit ((n / 16) % 16), base36Digit (n % 16)]

/-- JSON string escaping as performed by `JSON.stringify`. -/
def escChar (c : Char) : String :=
  if c = '"' then "\\\""
  else if c = '\\' then "\\\\"
  else if c = '\n' then "\\n"
  else if c = '\t' then "\\t"
  else if c = '\r' then "\\r"
  else if c.toNat < 32 then "\\u00" ++ hex2 c.toNat
  else String.singleton c

/-- Escape a whole string for a JSON string literal. -/
def jsonEscape (s : String) : String :=
  s.data.foldl (fun acc c => acc ++ escChar c) ""

mutual

/-- `JSON.stringify(v, null, 2)`: pretty-printed with a two-space indent.
`ind` is the indentation of the surrounding context.  Array expando
properties are ignored, as in JavaScript. -/
def stringifyAt (ind : String) : JVal → String
  | .null => "null"
  | .bool b => if b then "true" else "false"
  | .num n => toString n
  | .str s => "\"" ++ jsonEscape s ++ "\""
  | .arr .nil _ => "[]"
  | .arr (.cons e es) _ =>
    "[\n" ++ stringifyElems (ind ++ "  ") (.cons e es) ++ "\n" ++ ind ++ "]"
  | .obj .nil => "\x7b\x7d"
  | .obj (.cons k v fs) =>
    "\x7b\n" ++ stringifyFields (ind ++ "  ") (.cons k v fs) ++
      "\n" ++ ind ++ "\x7d"

/-- Comma-and-newline separated array elements at indentation `ind` (the
empty case does not occur). -/
def stringifyElems (ind : String) : JArr → String
  | .nil => ""
  | .cons e .nil => ind ++ stringifyAt ind e
  | .cons e (.cons e2 rest) =>
    ind ++ stringifyAt ind e ++ ",\n" ++ stringifyElems ind (.cons e2 rest)

/-- Comma-and-newline separated object fields at indentation `ind` (the
empty case does not occur). -/
def stringifyFields (ind : String) : JProps → String
  | .nil => ""
  | .cons k v .nil => ind ++ "\"" ++ jsonEscape k ++ "\": " ++ stringifyAt ind v
  | .cons k v (.cons k2 v2 rest) =>
    ind ++ "\"" ++ jsonEscape k ++ "\": " ++ stringifyAt ind v ++ ",\n" ++
      stringifyFields ind (.cons k2 v2 rest)

end

/-- `JSON.stringify(v, null, 2)` at top level. -/
def stringifyPretty (v : JVal) : String := stringifyAt "" v

/-- One character of the standard base64 alphabet. -/
def b64Char (n : Nat) : Char :=
  if n < 26 then Char.ofNat (65 + n)
  else if n < 52 then Char.ofNat (97 + (n - 26))
  else if n < 62 then Char.ofNat (48 + (n - 52))
  else if n = 62 then '+'
  else '/'

/-- `base64FromBytes` composed with `btoa`: standard base64 of a byte
sequence (the chunked `String.fromCharCode` in the source only works
around an argument-count limit and does not change the result). -/
def base64FromBytes : List Nat → String
  | [] => ""
  | [a] =>
    String.mk [b64Char (a / 4), b64Char ((a % 4) * 16)] ++ "=="
  | [a, b] =>
    String.mk [b64Char (a / 4), b64Char ((a % 4) * 16 + b / 16),
      b64Char ((b % 16) * 4)] ++ "="
  | a :: b :: c :: rest =>
    String.mk [b64Char (a / 4), b64Char ((a % 4) * 16 + b / 16),
      b64Char ((b % 16) * 4 + c / 64), b64Char (c % 64)] ++
      base64FromBytes rest

/-- UTF-8 bytes of a string (`TextEncoder().encode`). -/
def utf8Bytes (s : String) : List Nat :=
  s.toUTF8.toList.map UInt8.toNat

/-! ## Manifest update engine (part_001 lines 79-130; the detached task of
part_000 lines 120-205 shares the entry construction, `unshift`, version
bump and `generated_at` update verbatim) -/

/-- The initialized manifest document
`{ version: 1, generated_at: now, files: [] }` (part_001 lines 93 and 96,
part_000 lines 135 and 138).  Note `version` is the number `1`. -/
def defaultManifest (now : String) : JVal :=
  .obj (JProps.ofList
    [("version", .num 1), ("generated_at", .str now), ("files", .arr .nil .nil)])

/-- `dir ? "/" + dir.replace(/^\/+|\/+$/g, "") : "/"` - strip the leading
and trailing slash runs. -/
def trimSlashes (s : String) : String :=
  String.mk
    (((s.data.dropWhile (fun c => c = '/')).reverse.dropWhile
        (fun c => c = '/')).reverse)

/-- `normDir` of the entry construction. -/
def normDirOf (dir : String) : String :=
  if dir = "" then "/" else "/" ++ trimSlashes dir

/-- `entry.path`: `normDir === "/" ? "/" + targetName : normDir + "/" + targetName`. -/
def entryPathOf (dir targetName : String) : String :=
  if normDirOf dir = "/" then "/" ++ targetName
  else normDirOf dir ++ "/" ++ targetName

/-- The new manifest entry (part_001 lines 103-111, part_000 lines
145-153).  `fileType` is `file.type`, the declared content type, which is
the empty string when absent; `file.type || null` then yields `null`. -/
def manifestEntryJ (dir targetName fileType nowEntry : String) : JVal :=
  .obj (JProps.ofList
    [("dir", .str (normDirOf dir)), ("name", .str targetName),
     ("path", .str (entryPathOf dir targetName)),
     ("type", if fileType = "" then JVal.null else .str fileType),
     ("description", .str ""), ("uploaded_at", .str nowEntry)])

/-- Lines 112-126 of part_001 (identically lines 155-174 of part_000): on
the fetched-or-initialized `contentObj`, reset a non-array `files` to
`[]`, `unshift` the new entry, bump `version`, refresh `generated_at`.
Property access follows `jvalGet`/`jvalSet`, so a `null` or primitive
`contentObj` raises a TypeError exactly where JavaScript would. -/
def updateManifest (contentObj : JVal)
    (dir targetName fileType nowEntry nowGen : String) :
    Except JsError JVal :=
  let entry := manifestEntryJ dir targetName fileType nowEntry
  match jvalGet contentObj "files" with
  | .error e => .error e
  | .ok filesV =>
    match (match filesV with
           | some (.arr _ _) => Except.ok contentObj
           | _ => jvalSet contentObj "files" (.arr .nil .nil)) with
    | .error e => .error e
    | .ok o1 =>
      match jvalGet o1 "files" with
      | .error e => .error e
      | .ok filesV2 =>
        match (match filesV2 with
               | some (.arr es ps) =>
                 jvalSet o1 "files" (.arr (.cons entry es) ps)
               | _ => Except.error (.typeError "unshift is not a function")) with
        | .error e => .error e
        | .ok o2 =>
          match jvalGet o2 "version" with
          | .error e => .error e
          | .ok verV =>
            match jvalSet o2 "version" (.str (bumpVersion
                (match verV with | none => .undef | some v => .val v))) with
            | .error e => .error e
            | .ok o3 => jvalSet o3 "generated_at" (.str nowGen)

/-- Errors the handler can answer or raise: a JSON error response with an
HTTP status (carrying the upstream status and detail it reports), or an
uncaught thrown error (which the platform turns into a 500). -/
inductive HandlerErr where
  | response (httpStatus : Nat) (message : String) (ghStatus : Nat) (detail : String)
  | thrown (e : JsError)

/-- Outcome of the `content.json` GET of part_001 lines 83-85: a 2xx
response (whose decoded body parses to a `JVal` or fails to parse), a
404, or another failure status. -/
inductive ManifestFetch where
  | okBody (parseRes : Except Unit JVal)
  | notFound
  | failed (status : Nat) (text : String)

/-- Lines 80-100 of part_001: produce `contentObj`.  A parse failure or a
404 yields the initialized default; any other fetch failure is answered
with a 502 response. -/
def readManifestStep : ManifestFetch → String → Except HandlerErr JVal
  | .okBody (.ok v), _ => .ok v
  | .okBody (.error _), nowInit => .ok (defaultManifest nowInit)
  | .notFound, nowInit => .ok (defaultManifest nowInit)
  | .failed s t, _ =>
    .error (.response 502 "Failed to fetch content.json" s t)

/-- Lines 80-126 of part_001 composed: fetch-or-initialize the manifest,
then append the new entry and bump the version.  A thrown `JsError`
escapes the handler (there is no surrounding try/catch). -/
def manifestPhase001 (mf : ManifestFetch)
    (dir targetName fileType nowInit nowEntry nowGen : String) :
    Except HandlerErr JVal :=
  match readManifestStep mf nowInit with
  | .error e => .error e
  | .ok contentObj =>
    match updateManifest contentObj dir targetName fileType nowEntry nowGen with
    | .error e => .error (.thrown e)
    | .ok v => .ok v

/-! ## Path resolver (part_001 lines 44-77) -/

/-- Outcome of the existence probe
`GET /repos/.../contents/<safePath>?ref=<branch>`: a 2xx response (the
object exists), a 404 (it does not), or another failure. -/
inductive ProbeRes where
  | okFound
  | notFound404
  | failedCheck (status : Nat) (text : String)

/-- Lines 44-46 and 62-77 of part_001: with `overwrite` the candidate path
is used as-is and the probe is skipped; otherwise a found object renames
the target to `uniquePrefix() + "-" + finalName`, a 404 keeps the
candidate, and any other probe outcome is answered with a 502.  Returns
`(targetName, safePath)`. -/
def resolvePath001 (dir finalName : String) (overwrite : Bool)
    (probe : ProbeRes) (t : Nat) (r : String) :
    Except HandlerErr (String × String) :=
  let targetName := finalName
  let safePath := dirJoin dir targetName
  if overwrite then .ok (targetName, safePath)
  else
    match probe with
    | .okFound =>
      let tn := uniquePrefixOf t r ++ "-" ++ finalName
      .ok (tn, dirJoin dir tn)
    | .notFound404 => .ok (targetName, safePath)
    | .failedCheck s txt =>
      .error (.response 502 "Failed to check existing file" s txt)

/-! ## GitHub API model for the commit pipeline

Requests carry exactly the data the sources put into the request (fields
serialized from an `undefined` value are absent, hence the `Option`
fields); responses carry the single body value the caller extracts, as an
`Option String` because the callers use optional chaining (`json.object?.sha`,
`json.tree?.sha`, `bj.sha`). -/

/-- One entry of the `tree` array of a create-tree request (part_000 lines
303-308). -/
structure TreeEntry where
  path : String
  mode : String
  kind : String
  sha : Option String
  deriving DecidableEq, Repr

/-- The GitHub API requests the sources can issue.  `updateRef` and
`contentsPut` carry their JSON body as the list of fields actually
serialized. -/
inductive GhRequest where
  | readRef (branch : String)
  | readCommit (sha : String)
  | createBlob (contentBase64 : String) (encoding : String)
  | createTree (baseTreeField : Option String) (entries : List TreeEntry)
  | createCommit (message : String) (treeField : Option String)
      (parents : List String)
  | updateRef (branch : String) (bodyFields : List (String × String))
  | contentsGet (path : String) (ref : String)
  | contentsPut (path : String) (bodyFields : List (String × String))
  deriving DecidableEq, Repr

/-- A response: a 2xx with the one body value the caller reads, or a
failure status with its body text. -/
inductive GhResponse where
  | ok (sha0 : Option String)
  | err (status : Nat) (text : String)
  deriving DecidableEq, Repr

/-- The remote, as an arbitrary function of the request sequence number
and the request.  Quantifying over `Oracle` covers every remote
behaviour, including a branch head that moves between requests. -/
abbrev Oracle : Type := Nat → GhRequest → GhResponse

/-- Run state threaded through the pipeline: the next request sequence
number, the requests issued so far, and the `setTimeout` delays awaited so
far (in milliseconds). -/
structure RunSt where
  n : Nat
  trace : List GhRequest
  sleeps : List Nat
  deriving DecidableEq, Repr

/-- The initial run state. -/
def initSt : RunSt := RunSt.mk 0 [] []

/-- Issue one request against the oracle, recording it in the trace. -/
def send (o : Oracle) (req : GhRequest) (st : RunSt) : GhResponse × RunSt :=
  (o st.n req, RunSt.mk (st.n + 1) (st.trace ++ [req]) st.sleeps)

/-- Record an awaited `setTimeout` delay. -/
def pushSleep (st : RunSt) (ms : Nat) : RunSt :=
  RunSt.mk st.n st.trace (st.sleeps ++ [ms])

/-- A change-set entry: `{ contentBase64, mode? }`. -/
structure FileSpec where
  contentBase64 : String
  mode : Option String
  deriving DecidableEq, Repr

/-- The change-set `files`, a JavaScript object modelled as an assoc list
in key insertion order. -/
abbrev FileMap : Type := List (String × FileSpec)

/-- Computed-key object construction `obj[k] = v`: replace in place when
the key is present, append otherwise. -/
def jsObjSet (m : FileMap) (k : String) (v : FileSpec) : FileMap :=
  if (m.lookup k).isSome then
    m.map (fun kv => if kv.1 = k then (k, v) else kv)
  else m ++ [(k, v)]

/-- The change-set of part_001 lines 132-136:
`{ [safePath]: { contentBase64: b64 }, [contentPath]: { contentBase64: contentB64 } }`
with `contentPath = "content.json"` (line 80). -/
def filesToCommit001 (safePath b64 contentB64 : String) : FileMap :=
  jsObjSet (jsObjSet [] safePath (FileSpec.mk b64 none)) "content.json"
    (FileSpec.mk contentB64 none)

/-- Step 3 of both `commitFilesAtomically` versions (part_001 lines
245-253, part_000 lines 292-300): one create-blob POST per change-set
entry, collecting `blobMap[p] = bj.sha`; a non-2xx response throws. -/
def createBlobsLoop (o : Oracle) (files : FileMap)
    (acc : List (String × Option String)) (st : RunSt) :
    Except JsError (List (String × Option String)) × RunSt :=
  match files with
  | [] => (.ok acc, st)
  | (p, spec) :: rest =>
    let step := send o (.createBlob spec.contentBase64 "base64") st
    match step.1 with
    | .err s t =>
      (.error (.error ("blob create failed for " ++ p ++ ": " ++
        toString s ++ " " ++ t)), step.2)
    | .ok sha => createBlobsLoop o rest (acc ++ [(p, sha)]) step.2

/-- `files[p].mode || "100644"`. -/
def modeOr : Option String → String
  | none => "100644"
  | some m => if m = "" then "100644" else m

/-- `p.replace(/^\/+/, "")`. -/
def dropLeadingSlashes (p : String) : String :=
  String.mk (p.data.dropWhile (fun c => c = '/'))

/-- One attempt of part_001's `commitFilesAtomically` (lines 231-284).
Steps: read the branch ref, read the parent commit, create one blob per
file.  The create-tree step (lines 255-263) builds its request body from
the identifiers `base_tree` and `treeEntries`; neither is defined
anywhere in the function (the local is `baseTree`, and no tree-entry list
is ever constructed), so evaluating the object literal raises a
ReferenceError before any request is sent, and the attempt can never get
past this step. -/
def runAttempt001 (o : Oracle) (branch : String) (files : FileMap)
    (_message : String) (st : RunSt) :
    Except JsError (Option String) × RunSt :=
  let s1 := send o (.readRef branch) st
  match s1.1 with
  | .err s t =>
    (.error (.error ("ref fetch failed: " ++ toString s ++ " " ++ t)), s1.2)
  | .ok objectSha =>
    match objectSha with
    | none => (.error (.error "no parent sha"), s1.2)
    | some parentSha =>
      if parentSha = "" then (.error (.error "no parent sha"), s1.2)
      else
        let s2 := send o (.readCommit parentSha) s1.2
        match s2.1 with
        | .err s t =>
          (.error (.error ("commit fetch failed: " ++ toString s ++ " " ++ t)),
            s2.2)
        | .ok _baseTree =>
          match createBlobsLoop o files [] s2.2 with
          | (.error e, s3) => (.error e, s3)
          | (.ok _blobMap, s3) =>
            (.error (.referenceError "base_tree is not defined"), s3)

/-- The retry loop of part_001 lines 230-292: up to 3 attempts; any
caught error sleeps `200 * attempt` ms and retries while `attempt < 3`,
otherwise it is rethrown.  `attempt` is the 1-based loop counter and
`left` the number of further attempts the loop may still make
(`left = 3 - attempt`, so `attempt < 3` is `left > 0`); recursion on
`left` keeps the model decidably evaluable.  The `throw new
Error("unreachable")` after the loop (line 294) cannot be reached, since
the loop body always returns or rethrows on its last attempt. -/
def commitLoop001 (o : Oracle) (branch : String) (files : FileMap)
    (message : String) (attempt : Nat) (left : Nat) (st : RunSt) :
    Except JsError (Option String) × RunSt :=
  match runAttempt001 o branch files message st with
  | (.ok v, st') => (.ok v, st')
  | (.error e, st') =>
    match left with
    | 0 => (.error e, st')
    | l + 1 =>
      commitLoop001 o branch files message (attempt + 1) l
        (pushSleep st' (200 * attempt))

/-- part_001's `commitFilesAtomically` (lines 219-295): the loop starts
at attempt 1 with 2 further attempts allowed. -/
def commitFilesAtomically001 (o : Oracle) (branch : String) (files : FileMap)
    (message : String) : Except JsError (Option String) × RunSt :=
  commitLoop001 o branch files message 1 2 initSt

/-- part_000's `commitFilesAtomically` (lines 276-338): the same pipeline,
straight-line (no retry loop), with the tree entries actually constructed
(lines 303-308) and the ref PATCH body `{ sha: newCommitSha }` (line 333)
- the serialized body holds the `sha` field alone (none at all when
`newCommitSha` is `undefined`). -/
def commitFilesAtomically000 (o : Oracle) (branch : String) (files : FileMap)
    (message : String) (st : RunSt) :
    Except JsError (Option String) × RunSt :=
  let s1 := send o (.readRef branch) st
  match s1.1 with
  | .err s t =>
    (.error (.error ("ref fetch failed: " ++ toString s ++ " " ++ t)), s1.2)
  | .ok objectSha =>
    match objectSha with
    | none => (.error (.error "no parent sha"), s1.2)
    | some parentSha =>
      if parentSha = "" then (.error (.error "no parent sha"), s1.2)
      else
        let s2 := send o (.readCommit parentSha) s1.2
        match s2.1 with
        | .err s t =>
          (.error (.error ("commit fetch failed: " ++ toString s ++ " " ++ t)),
            s2.2)
        | .ok baseTree =>
          match createBlobsLoop o files [] s2.2 with
          | (.error e, s3) => (.error e, s3)
          | (.ok blobMap, s3) =>
            let treeEntries := files.map (fun pf =>
              TreeEntry.mk (dropLeadingSlashes pf.1) (modeOr pf.2.mode) "blob"
                ((blobMap.lookup pf.1).getD none))
            let s4 := send o (.createTree baseTree treeEntries) s3
            match s4.1 with
            | .err s t =>
              (.error (.error ("tree create failed: " ++ toString s ++ " " ++ t)),
                s4.2)
            | .ok newTreeSha =>
              let s5 := send o (.createCommit message newTreeSha [parentSha]) s4.2
              match s5.1 with
              | .err s t =>
                (.error (.error ("commit create failed: " ++ toString s ++
                  " " ++ t)), s5.2)
              | .ok newCommitSha =>
                let flds :=
                  match newCommitSha with
                  | some sh => [("sha", sh)]
                  | none => []
                let s6 := send o (.updateRef branch flds) s5.2
                match s6.1 with
                | .err s t =>
                  (.error (.error ("ref update failed: " ++ toString s ++
                    " " ++ t)), s6.2)
                | .ok _ => (.ok newCommitSha, s6.2)

/-- A fault-free remote: every request succeeds, with fixed shas `c0`
(head), `t0` (base tree), `b0` (blob), `t1` (new tree), `c1` (new
commit). -/
def okOracle : Oracle := fun _ req =>
  match req with
  | .readRef _ => .ok (some "c0")
  | .readCommit _ => .ok (some "t0")
  | .createBlob _ _ => .ok (some "b0")
  | .createTree _ _ => .ok (some "t1")
  | .createCommit _ _ _ => .ok (some "c1")
  | .updateRef _ _ => .ok none
  | .contentsGet _ _ => .ok none
  | .contentsPut _ _ => .ok none

/-- Number of read-ref requests in a trace; every pipeline attempt issues
exactly one, so this counts attempts. -/
def readRefCount (tr : List GhRequest) : Nat :=
  tr.countP (fun r => match r with | .readRef _ => true | _ => false)

/-! ## part_000 handler (first document of src/unnamed/part_000, lines
61-207): Contents-API PUT for the artifact, then a detached async task
that updates `content.json` with its own Contents-API PUT. -/

/-- A Contents-API PUT/GET response as the handler reads it: `ok`,
`status`, the body `text`, and the body's `JSON.parse` outcome (`none`
when the text is not valid JSON), which `safeJSON` falls back from. -/
structure PutRes where
  ok : Bool
  status : Nat
  text : String
  json : Option JVal

/-- `safeJSON(text)`: the parsed body, or the raw text when parsing
fails. -/
def safeJSONOf (p : PutRes) : Sum String JVal :=
  match p.json with
  | some v => .inr v
  | none => .inl p.text

/-- The message extracted at part_000 lines 92-93: `safeJSON` the body,
then `typeof body === "string" ? body : (body?.message || "")`. -/
def msgOf (p : PutRes) : String :=
  match safeJSONOf p with
  | .inl s => s
  | .inr v =>
    match v with
    | .str s => s
    | .obj fs =>
      match fs.lookup "message" with
      | some m => if jsTruthy m then jsStringOf m else ""
      | none => ""
    | _ => ""

/-- `...(sha ? { sha } : {})`: the `sha` body field is present only when
the value is truthy (a non-empty string). -/
def shaField : Option String → List (String × String)
  | some s => if s = "" then [] else [("sha", s)]
  | none => []

/-- Outcome of the manifest GET inside the detached task (lines 124-142):
a 2xx with `meta.sha` and the parse outcome of the decoded `meta.content`,
a 404, or another failure status. -/
inductive MGet where
  | ok (sha0 : Option String) (parseRes : Except Unit JVal)
  | notFound
  | failed (status : Nat)

/-- What the detached task did: the warnings it logged and the
`content.json` PUT request it issued (if it got that far). -/
structure TaskOut where
  warnLog : List String
  putReq : Option GhRequest

/-- The detached async task of part_000 lines 120-204.  A non-404 GET
failure returns silently (line 141); a parse failure or 404 initializes
the default document; the entry append / version bump / `generated_at`
refresh is `updateManifest`; a thrown error is caught and logged (lines
200-203); a failed PUT is logged (lines 194-199).  `tPut` is the
response to the task's own PUT. -/
def part000Task (g : MGet) (tPut : PutRes)
    (dir targetName fileType branch nowInit nowEntry nowGen : String) :
    TaskOut :=
  match g with
  | .failed _ => TaskOut.mk [] none
  | _ =>
    let contentSha : Option String :=
      match g with
      | .ok s _ => s
      | _ => none
    let contentObj : JVal :=
      match g with
      | .ok _ (.ok v) => v
      | _ => defaultManifest nowInit
    match updateManifest contentObj dir targetName fileType nowEntry nowGen with
    | .error e =>
      TaskOut.mk ["content.json update error: " ++ jsErrMessage e] none
    | .ok newObj =>
      let newB64 := base64FromBytes (utf8Bytes (stringifyPretty newObj))
      let flds :=
        [("message", "Update content.json: add " ++ entryPathOf dir targetName),
         ("content", newB64), ("branch", branch)] ++ shaField contentSha
      let req := GhRequest.contentsPut "content.json" flds
      if tPut.ok then TaskOut.mk [] (some req)
      else
        TaskOut.mk ["content.json update failed: " ++ toString tPut.status]
          (some req)

/-- The handler's success response (line 207):
`{ ok: true, path, filename, rawUrl, github }`. -/
structure OkResp where
  path : String
  filename : String
  rawUrl : String
  github : Sum String JVal

/-- The handler's error response (line 113):
`{ error: "GitHub API error", status, detail }` with the upstream
status. -/
structure ErrResp where
  status : Nat
  detail : Sum String JVal

/-- `hay.includes(needle)` on strings. -/
def containsSub (hay needle : String) : Bool :=
  decide (List.IsInfix needle.data hay.data)

/-- part_000 handler, artifact phase (lines 79-114): the first PUT at the
candidate path (`put1` answers it); when it fails with 409/422,
`overwrite` is off and the body message contains "already exists", the
target is renamed to `uniquePrefix() + "-" + finalName` and PUT once more
(`put2` answers it); a failed final PUT yields the error response of line
113.  Returns the response, the final target name, and the Contents-API
requests issued.  The detached task is not consulted: the source builds
the response (line 207) from the PUT results alone. -/
def part000ArtifactPhase (repo branch dir finalName b64 : String)
    (overwrite : Bool) (shaOv : Option String) (put1 put2 : PutRes)
    (t : Nat) (r : String) :
    Except ErrResp OkResp × String × List GhRequest :=
  let targetName := finalName
  let safePath := dirJoin dir targetName
  let req1 := GhRequest.contentsPut safePath
    ([("message", "Upload " ++ targetName ++ " via moenaigomi.com"),
      ("content", b64), ("branch", branch)] ++ shaField shaOv)
  let doRetry : Bool :=
    !put1.ok && !overwrite && (put1.status = 409 || put1.status = 422) &&
      containsSub (msgOf put1) "already exists"
  if doRetry then
    let targetName2 := uniquePrefixOf t r ++ "-" ++ finalName
    let safePath2 := dirJoin dir targetName2
    let req2 := GhRequest.contentsPut safePath2
      [("message", "Upload " ++ targetName2 ++ " via moenaigomi.com (unique)"),
       ("content", b64), ("branch", branch)]
    if !put2.ok then
      (.error (ErrResp.mk put2.status (safeJSONOf put2)), targetName2,
        [req1, req2])
    else
      (.ok (OkResp.mk safePath2 targetName2
        ("https://raw.githubusercontent.com/" ++ repo ++ "/" ++ branch ++
          "/" ++ safePath2) (safeJSONOf put2)), targetName2, [req1, req2])
  else
    if !put1.ok then
      (.error (ErrResp.mk put1.status (safeJSONOf put1)), targetName, [req1])
    else
      (.ok (OkResp.mk safePath targetName
        ("https://raw.githubusercontent.com/" ++ repo ++ "/" ++ branch ++
          "/" ++ safePath) (safeJSONOf put1)), targetName, [req1])

/-- part_000 handler, lines 79-207: the artifact phase, then - only on
success - the detached `content.json` task (lines 120-204), whose inputs
`g` (its manifest GET) and `tPut` (its PUT) do not feed into the
response.  Returns the response, the task outcome (`none` when the task
never started), and the Contents-API requests issued by handler and
task. -/
def part000Handler (repo branch dir finalName b64 fileType : String)
    (overwrite : Bool) (shaOv : Option String) (put1 put2 : PutRes)
    (t : Nat) (r : String) (g : MGet) (tPut : PutRes)
    (nowInit nowEntry nowGen : String) :
    Except ErrResp OkResp × Option TaskOut × List GhRequest :=
  match part000ArtifactPhase repo branch dir finalName b64 overwrite shaOv
      put1 put2 t r with
  | (.error e, _, reqs) => (.error e, none, reqs)
  | (.ok resp, targetName2, reqs) =>
    let task := part000Task g tPut dir targetName2 fileType branch
      nowInit nowEntry nowGen
    (.ok resp, some task,
      reqs ++ (match task.putReq with | some rq => [rq] | none => []))

/-- Numeric value of one base-36 digit character (proof-support inverse
of `base36Digit`). -/
def b36DigitVal (c : Char) : Nat :=
  if 97 ≤ c.toNat then c.toNat - 87 else c.toNat - 48

/-- Value of a big-endian base-36 digit character list (proof-support
inverse of `natToBase36`). -/
def b36Val (l : List Char) : Nat :=
  l.foldl (fun a c => a * 36 + b36DigitVal c) 0

/-! ## Helper lemmas -/

theorem b36DigitVal_base36Digit (d : Nat) (h : d < 36) :
    b36DigitVal (base36Digit d) = d := by
  interval_cases d <;> decide

theorem b36Val_append_singleton (l : List Char) (c : Char) :
    b36Val (l ++ [c]) = b36Val l * 36 + b36DigitVal c := by
  simp [b36Val, List.foldl_append]

theorem b36Val_toB36Aux (n : Nat) :
    ∀ fuel, n < fuel → b36Val (toB36Aux fuel n).reverse = n := by
  induction n using Nat.strong_induction_on with
  | _ n ih =>
    intro fuel hf
    match fuel, n with
    | f + 1, 0 => simp [toB36Aux, b36Val]
    | f + 1, m + 1 =>
      have hdiv : (m + 1) / 36 < m + 1 := Nat.div_lt_self (Nat.succ_pos m) (by omega)
      have hlt : (m + 1) / 36 < f := by omega
      have hrec := ih ((m + 1) / 36) hdiv f hlt
      calc b36Val (toB36Aux (f + 1) (m + 1)).reverse
          = b36Val ((toB36Aux f ((m + 1) / 36)).reverse ++
              [base36Digit ((m + 1) % 36)]) := by
            simp [toB36Aux]
        _ = (m + 1) / 36 * 36 + (m + 1) % 36 := by
            rw [b36Val_append_singleton, hrec,
              b36DigitVal_base36Digit _ (Nat.mod_lt _ (by omega))]
        _ = m + 1 := by rw [Nat.mul_comm]; exact Nat.div_add_mod (m + 1) 36

theorem b36Val_natToBase36 (n : Nat) : b36Val (natToBase36 n).data = n := by
  by_cases h : n = 0
  · subst h
    decide
  · have hn : 0 < n := Nat.pos_of_ne_zero h
    simp only [natToBase36, if_neg h]
    exact b36Val_toB36Aux n (n + 1) (Nat.lt_succ_self n)

theorem natToBase36_injective {n m : Nat} (h : natToBase36 n = natToBase36 m) :
    n = m := by
  have := congrArg (fun s => b36Val s.data) h
  simpa [b36Val_natToBase36] using this

theorem natToBase36_length_pos (n : Nat) : 0 < (natToBase36 n).length := by
  by_cases h : n = 0
  · subst h
    decide
  · obtain ⟨m, rfl⟩ := Nat.exists_eq_succ_of_ne_zero h
    simp [natToBase36, toB36Aux, String.length]

theorem uniqueTarget_inj (t1 t2 : Nat) (r1 r2 fn : String)
    (hlen : r1.length = r2.length)
    (h : uniquePrefixOf t1 r1 ++ "-" ++ fn = uniquePrefixOf t2 r2 ++ "-" ++ fn) :
    t1 = t2 ∧ r1 = r2 := by
  have hd := congrArg String.data h
  simp only [uniquePrefixOf, String.data_append] at hd
  have hd2 : (((natToBase36 t1).data ++ ['-']) ++ r1.data) ++ ('-' :: fn.data)
      = (((natToBase36 t2).data ++ ['-']) ++ r2.data) ++ ('-' :: fn.data) := by
    simpa [List.append_assoc] using hd
  have h3 := List.append_cancel_right hd2
  have hlen' : r1.data.length = r2.data.length := hlen
  obtain ⟨h4, h5⟩ := List.append_inj' h3 hlen'
  refine ⟨?_, String.ext h5⟩
  have h6 := (List.append_inj' h4 rfl).1
  calc t1 = b36Val (natToBase36 t1).data := (b36Val_natToBase36 t1).symm
    _ = b36Val (natToBase36 t2).data := congrArg b36Val h6
    _ = t2 := b36Val_natToBase36 t2

theorem uniqueTarget_ne (t : Nat) (r fn : String) :
    uniquePrefixOf t r ++ "-" ++ fn ≠ fn := by
  intro h
  have hl := congrArg String.length h
  simp only [String.length_append, uniquePrefixOf] at hl
  have := natToBase36_length_pos t
  omega

theorem dirJoin_inj (dir : String) {a b : String}
    (h : dirJoin dir a = dirJoin dir b) : a = b := by
  unfold dirJoin at h
  by_cases hd : dir = ""
  · simpa [hd] using h
  · simp only [if_neg hd] at h
    have hdata := congrArg String.data h
    simp only [String.data_append] at hdata
    have h2 : dir.data ++ ('/' :: a.data) = dir.data ++ ('/' :: b.data) := by
      simpa [List.append_assoc] using hdata
    have h3 := List.append_cancel_left h2
    exact String.ext (by simpa using h3)

theorem createBlobsLoop_trace_sub (o : Oracle) (files : FileMap) :
    ∀ acc st r, r ∈ (createBlobsLoop o files acc st).2.trace →
      r ∈ st.trace ∨ ∃ c e, r = GhRequest.createBlob c e := by
  induction files with
  | nil =>
    intro acc st r hr
    exact Or.inl hr
  | cons pf rest ih =>
    intro acc st r hr
    simp only [createBlobsLoop, send] at hr
    cases hresp : o st.n (GhRequest.createBlob pf.2.contentBase64 "base64") with
    | ok sha =>
      rw [hresp] at hr
      simp only [] at hr
      rcases ih _ _ r hr with hin | hblob
      · simp only [List.mem_append, List.mem_singleton] at hin
        rcases hin with hin | rfl
        · exact Or.inl hin
        · exact Or.inr ⟨_, _, rfl⟩
      · exact Or.inr hblob
    | err st0 t0 =>
      rw [hresp] at hr
      simp only [List.mem_append, List.mem_singleton] at hr
      rcases hr with hin | rfl
      · exact Or.inl hin
      · exact Or.inr ⟨_, _, rfl⟩

theorem createBlobsLoop_readRefCount (o : Oracle) (files : FileMap) :
    ∀ acc st, readRefCount (createBlobsLoop o files acc st).2.trace =
      readRefCount st.trace := by
  induction files with
  | nil => intro acc st; rfl
  | cons pf rest ih =>
    intro acc st
    simp only [createBlobsLoop, send]
    cases hresp : o st.n (GhRequest.createBlob pf.2.contentBase64 "base64") with
    | ok sha =>
      simp only []
      rw [ih]
      simp [readRefCount, List.countP_append]
    | err st0 t0 =>
      simp [readRefCount, List.countP_append]

theorem createBlobsLoop_sleeps (o : Oracle) (files : FileMap) :
    ∀ acc st, (createBlobsLoop o files acc st).2.sleeps = st.sleeps := by
  induction files with
  | nil => intro acc st; rfl
  | cons pf rest ih =>
    intro acc st
    simp only [createBlobsLoop, send]
    cases hresp : o st.n (GhRequest.createBlob pf.2.contentBase64 "base64") with
    | ok sha =>
      simp only []
      rw [ih]
    | err st0 t0 => rfl

theorem runAttempt001_shape (o : Oracle) (b : String) (f : FileMap)
    (m : String) (st : RunSt) :
    (∃ e st', runAttempt001 o b f m st = (.error e, st')) ∧
    (∀ r ∈ (runAttempt001 o b f m st).2.trace,
        r ∈ st.trace ∨ r = GhRequest.readRef b ∨
        (∃ s, r = GhRequest.readCommit s) ∨
        ∃ c e, r = GhRequest.createBlob c e) ∧
    readRefCount (runAttempt001 o b f m st).2.trace =
      readRefCount st.trace + 1 ∧
    (runAttempt001 o b f m st).2.sleeps = st.sleeps := by
  simp only [runAttempt001, send]
  cases h1 : o st.n (GhRequest.readRef b) with
  | err s1 t1 =>
    refine ⟨⟨_, _, rfl⟩, ?_, ?_, rfl⟩
    · intro r hr
      simp only [List.mem_append, List.mem_singleton] at hr
      rcases hr with hin | rfl
      · exact Or.inl hin
      · exact Or.inr (Or.inl rfl)
    · simp [readRefCount, List.countP_append]
  | ok objectSha =>
    cases objectSha with
    | none =>
      refine ⟨⟨_, _, rfl⟩, ?_, ?_, rfl⟩
      · intro r hr
        simp only [List.mem_append, List.mem_singleton] at hr
        rcases hr with hin | rfl
        · exact Or.inl hin
        · exact Or.inr (Or.inl rfl)
      · simp [readRefCount, List.countP_append]
    | some p =>
      dsimp only
      by_cases hp : p = ""
      · rw [if_pos hp]
        refine ⟨⟨_, _, rfl⟩, ?_, ?_, rfl⟩
        · intro r hr
          simp only [List.mem_append, List.mem_singleton] at hr
          rcases hr with hin | rfl
          · exact Or.inl hin
          · exact Or.inr (Or.inl rfl)
        · simp [readRefCount, List.countP_append]
      · rw [if_neg hp]
        cases h2 : o (st.n + 1) (GhRequest.readCommit p) with
        | err s2 t2 =>
          refine ⟨⟨_, _, rfl⟩, ?_, ?_, rfl⟩
          · intro r hr
            simp only [List.mem_append, List.mem_singleton] at hr
            rcases hr with ⟨hin | rfl⟩ | rfl
            · exact Or.inl hin
            · exact Or.inr (Or.inl rfl)
            · exact Or.inr (Or.inr (Or.inl ⟨_, rfl⟩))
          · simp [readRefCount, List.countP_append]
        | ok bt =>
          have hb1 := createBlobsLoop_trace_sub o f []
            (RunSt.mk (st.n + 1 + 1)
              ((st.trace ++ [GhRequest.readRef b]) ++ [GhRequest.readCommit p])
              st.sleeps)
          have hb2 := createBlobsLoop_readRefCount o f []
            (RunSt.mk (st.n + 1 + 1)
              ((st.trace ++ [GhRequest.readRef b]) ++ [GhRequest.readCommit p])
              st.sleeps)
          have hb3 := createBlobsLoop_sleeps o f []
            (RunSt.mk (st.n + 1 + 1)
              ((st.trace ++ [GhRequest.readRef b]) ++ [GhRequest.readCommit p])
              st.sleeps)
          cases hbl : createBlobsLoop o f []
            (RunSt.mk (st.n + 1 + 1)
              ((st.trace ++ [GhRequest.readRef b]) ++ [GhRequest.readCommit p])
              st.sleeps) with
          | mk res s3 =>
            rw [hbl] at hb1 hb2 hb3
            have htr : ∀ r ∈ s3.trace,
                r ∈ st.trace ∨ r = GhRequest.readRef b ∨
                (∃ s, r = GhRequest.readCommit s) ∨
                ∃ c e, r = GhRequest.createBlob c e := by
              intro r hr
              rcases hb1 r hr with hin | hblob
              · simp only [List.mem_append, List.mem_singleton] at hin
                rcases hin with ⟨hin | rfl⟩ | rfl
                · exact Or.inl hin
                · exact Or.inr (Or.inl rfl)
                · exact Or.inr (Or.inr (Or.inl ⟨_, rfl⟩))
              · exact Or.inr (Or.inr (Or.inr hblob))
            have hcnt : readRefCount s3.trace = readRefCount st.trace + 1 := by
              rw [hb2]
              simp [readRefCount, List.countP_append]
            cases res with
            | error e => exact ⟨⟨_, _, rfl⟩, htr, hcnt, hb3⟩
            | ok bm => exact ⟨⟨_, _, rfl⟩, htr, hcnt, hb3⟩

theorem commitLoop001_shape (o : Oracle) (b : String) (f : FileMap)
    (m : String) : ∀ left attempt st,
    (∃ e st', commitLoop001 o b f m attempt left st = (.error e, st')) ∧
    (∀ r ∈ (commitLoop001 o b f m attempt left st).2.trace,
        r ∈ st.trace ∨ r = GhRequest.readRef b ∨
        (∃ s, r = GhRequest.readCommit s) ∨
        ∃ c e, r = GhRequest.createBlob c e) ∧
    readRefCount (commitLoop001 o b f m attempt left st).2.trace =
      readRefCount st.trace + (left + 1) ∧
    (commitLoop001 o b f m attempt left st).2.sleeps =
      st.sleeps ++ (List.range left).map (fun i => 200 * (attempt + i)) := by
  intro left
  induction left with
  | zero =>
    intro attempt st
    obtain ⟨hex, htr, hcnt, hsl⟩ := runAttempt001_shape o b f m st
    obtain ⟨e, st', heq⟩ := hex
    rw [heq] at htr hcnt hsl
    dsimp only at htr hcnt hsl
    simp only [commitLoop001, heq]
    exact ⟨⟨e, st', rfl⟩, htr, by omega, by simpa using hsl⟩
  | succ l ih =>
    intro attempt st
    obtain ⟨hex, htr, hcnt, hsl⟩ := runAttempt001_shape o b f m st
    obtain ⟨e, st', heq⟩ := hex
    rw [heq] at htr hcnt hsl
    dsimp only at htr hcnt hsl
    rw [commitLoop001.eq_def, heq]
    dsimp only
    obtain ⟨ihex, ihtr, ihcnt, ihsl⟩ :=
      ih (attempt + 1) (pushSleep st' (200 * attempt))
    refine ⟨ihex, ?_, ?_, ?_⟩
    · intro r hr
      rcases ihtr r hr with hin | hsh
      · exact htr r hin
      · exact Or.inr hsh
    · have hps : (pushSleep st' (200 * attempt)).trace = st'.trace := rfl
      rw [ihcnt, hps]
      omega
    · have hps : (pushSleep st' (200 * attempt)).sleeps =
          st'.sleeps ++ [200 * attempt] := rfl
      rw [ihsl, hps, hsl, List.append_assoc, List.singleton_append]
      have hlist : (200 * attempt) ::
          (List.range l).map (fun i => 200 * (attempt + 1 + i)) =
          (List.range (l + 1)).map (fun i => 200 * (attempt + i)) := by
        rw [List.range_succ_eq_map, List.map_cons, List.map_map]
        have h0 : 200 * (attempt + 0) = 200 * attempt := by omega
        rw [h0]
        congr 1
        apply List.map_congr_left
        intro a _
        simp only [Function.comp]
        omega
      rw [hlist]

theorem commit000_trace_shape (o : Oracle) (b : String) (f : FileMap)
    (m : String) :
    ∀ r ∈ (commitFilesAtomically000 o b f m initSt).2.trace,
      (∃ br, r = GhRequest.readRef br) ∨
      (∃ s, r = GhRequest.readCommit s) ∨
      (∃ c e, r = GhRequest.createBlob c e) ∨
      (∃ bt es, r = GhRequest.createTree bt es) ∨
      (∃ tr ps, r = GhRequest.createCommit m tr ps ∧
        ∃ p, ps = [p] ∧ o 0 (GhRequest.readRef b) = GhResponse.ok (some p)) ∨
      (∃ flds, r = GhRequest.updateRef b flds ∧
        ∀ kv ∈ flds, kv.1 = "sha") := by
  intro r hr
  simp only [commitFilesAtomically000, send, initSt] at hr
  cases h1 : o 0 (GhRequest.readRef b) with
  | err s1 t1 =>
    rw [h1] at hr
    simp only [List.nil_append, List.mem_singleton] at hr
    exact Or.inl ⟨_, hr⟩
  | ok objectSha =>
    rw [h1] at hr
    cases objectSha with
    | none =>
      simp only [List.nil_append, List.mem_singleton] at hr
      exact Or.inl ⟨_, hr⟩
    | some p =>
      dsimp only at hr
      by_cases hp : p = ""
      · rw [if_pos hp] at hr
        simp only [List.nil_append, List.mem_singleton] at hr
        exact Or.inl ⟨_, hr⟩
      · rw [if_neg hp] at hr
        cases h2 : o (0 + 1) (GhRequest.readCommit p) with
        | err s2 t2 =>
          rw [h2] at hr
          simp only [List.nil_append, List.mem_append, List.mem_singleton] at hr
          rcases hr with rfl | rfl
          · exact Or.inl ⟨_, rfl⟩
          · exact Or.inr (Or.inl ⟨_, rfl⟩)
        | ok bt =>
          rw [h2] at hr
          dsimp only at hr
          cases hbl : createBlobsLoop o f []
            (RunSt.mk (0 + 1 + 1)
              (([] ++ [GhRequest.readRef b]) ++ [GhRequest.readCommit p])
              []) with
          | mk res s3 =>
            have hb1 := createBlobsLoop_trace_sub o f []
              (RunSt.mk (0 + 1 + 1)
                (([] ++ [GhRequest.readRef b]) ++ [GhRequest.readCommit p]) [])
            rw [hbl] at hb1
            have hmem3 : ∀ x, x ∈ s3.trace →
                (∃ br, x = GhRequest.readRef br) ∨
                (∃ s, x = GhRequest.readCommit s) ∨
                (∃ c e, x = GhRequest.createBlob c e) := by
              intro x hx
              rcases hb1 x hx with hin | hb
              · simp only [List.nil_append, List.mem_append,
                  List.mem_singleton] at hin
                rcases hin with rfl | rfl
                · exact Or.inl ⟨_, rfl⟩
                · exact Or.inr (Or.inl ⟨_, rfl⟩)
              · exact Or.inr (Or.inr hb)
            rw [hbl] at hr
            cases res with
            | error e =>
              dsimp only at hr
              rcases hmem3 r hr with h | h | h
              · exact Or.inl h
              · exact Or.inr (Or.inl h)
              · exact Or.inr (Or.inr (Or.inl h))
            | ok bm =>
              dsimp only at hr
              cases h4 : o s3.n (GhRequest.createTree bt
                  (List.map (fun pf =>
                    TreeEntry.mk (dropLeadingSlashes pf.1) (modeOr pf.2.mode)
                      "blob" ((bm.lookup pf.1).getD none)) f)) with
              | err s4 t4 =>
                rw [h4] at hr
                simp only [List.mem_append, List.mem_singleton] at hr
                rcases hr with hin | rfl
                · rcases hmem3 r hin with h | h | h
                  · exact Or.inl h
                  · exact Or.inr (Or.inl h)
                  · exact Or.inr (Or.inr (Or.inl h))
                · exact Or.inr (Or.inr (Or.inr (Or.inl ⟨_, _, rfl⟩)))
              | ok nts =>
                rw [h4] at hr
                dsimp only at hr
                cases h5 : o (s3.n + 1) (GhRequest.createCommit m nts [p]) with
                | err s5 t5 =>
                  rw [h5] at hr
                  simp only [List.mem_append, List.mem_singleton] at hr
                  rcases hr with (hin | rfl) | rfl
                  · rcases hmem3 r hin with h | h | h
                    · exact Or.inl h
                    · exact Or.inr (Or.inl h)
                    · exact Or.inr (Or.inr (Or.inl h))
                  · exact Or.inr (Or.inr (Or.inr (Or.inl ⟨_, _, rfl⟩)))
                  · exact Or.inr (Or.inr (Or.inr (Or.inr (Or.inl
                      ⟨_, _, rfl, p, rfl, rfl⟩))))
                | ok ncs =>
                  rw [h5] at hr
                  dsimp only at hr
                  cases ncs with
                  | some sh =>
                    dsimp only at hr
                    cases h6 : o (s3.n + 1 + 1)
                        (GhRequest.updateRef b [("sha", sh)]) with
                    | err s6 t6 =>
                      rw [h6] at hr
                      simp only [List.mem_append, List.mem_singleton] at hr
                      rcases hr with ((hin | rfl) | rfl) | rfl
                      · rcases hmem3 r hin with h | h | h
                        · exact Or.inl h
                        · exact Or.inr (Or.inl h)
                        · exact Or.inr (Or.inr (Or.inl h))
                      · exact Or.inr (Or.inr (Or.inr (Or.inl ⟨_, _, rfl⟩)))
                      · exact Or.inr (Or.inr (Or.inr (Or.inr (Or.inl
                          ⟨_, _, rfl, p, rfl, rfl⟩))))
                      · refine Or.inr (Or.inr (Or.inr (Or.inr (Or.inr
                          ⟨_, rfl, ?_⟩))))
                        intro kv hkv
                        simp only [List.mem_singleton] at hkv
                        rw [hkv]
                    | ok u =>
                      rw [h6] at hr
                      dsimp only at hr
                      simp only [List.mem_append, List.mem_singleton] at hr
                      rcases hr with ((hin | rfl) | rfl) | rfl
                      · rcases hmem3 r hin with h | h | h
                        · exact Or.inl h
                        · exact Or.inr (Or.inl h)
                        · exact Or.inr (Or.inr (Or.inl h))
                      · exact Or.inr (Or.inr (Or.inr (Or.inl ⟨_, _, rfl⟩)))
                      · exact Or.inr (Or.inr (Or.inr (Or.inr (Or.inl
                          ⟨_, _, rfl, p, rfl, rfl⟩))))
                      · refine Or.inr (Or.inr (Or.inr (Or.inr (Or.inr
                          ⟨_, rfl, ?_⟩))))
                        intro kv hkv
                        simp only [List.mem_singleton] at hkv
                        rw [hkv]
                  | none =>
                    dsimp only at hr
                    cases h6 : o (s3.n + 1 + 1)
                        (GhRequest.updateRef b []) with
                    | err s6 t6 =>
                      rw [h6] at hr
                      simp only [List.mem_append, List.mem_singleton] at hr
                      rcases hr with ((hin | rfl) | rfl) | rfl
                      · rcases hmem3 r hin with h | h | h
                        · exact Or.inl h
                        · exact Or.inr (Or.inl h)
                        · exact Or.inr (Or.inr (Or.inl h))
                      · exact Or.inr (Or.inr (Or.inr (Or.inl ⟨_, _, rfl⟩)))
                      · exact Or.inr (Or.inr (Or.inr (Or.inr (Or.inl
                          ⟨_, _, rfl, p, rfl, rfl⟩))))
                      · exact Or.inr (Or.inr (Or.inr (Or.inr (Or.inr
                          ⟨_, rfl, by intro kv hkv; simp at hkv⟩))))
                    | ok u =>
                      rw [h6] at hr
                      dsimp only at hr
                      simp only [List.mem_append, List.mem_singleton] at hr
                      rcases hr with ((hin | rfl) | rfl) | rfl
                      · rcases hmem3 r hin with h | h | h
                        · exact Or.inl h
                        · exact Or.inr (Or.inl h)
                        · exact Or.inr (Or.inr (Or.inl h))
                      · exact Or.inr (Or.inr (Or.inr (Or.inl ⟨_, _, rfl⟩)))
                      · exact Or.inr (Or.inr (Or.inr (Or.inr (Or.inl
                          ⟨_, _, rfl, p, rfl, rfl⟩))))
                      · exact Or.inr (Or.inr (Or.inr (Or.inr (Or.inr
                          ⟨_, rfl, by intro kv hkv; simp at hkv⟩))))

theorem JProps.lookup_replace_self : ∀ (fs : JProps) (k : String) (v : JVal),
    (fs.lookup k).isSome → (fs.replace k v).lookup k = some v
  | .nil, k, v, h => by simp [JProps.lookup] at h
  | .cons k0 v0 rest, k, v, h => by
    by_cases h0 : k0 = k
    · subst h0
      simp [JProps.replace, JProps.lookup]
    · simp only [JProps.replace, if_neg h0, JProps.lookup]
      apply JProps.lookup_replace_self rest k v
      simpa [JProps.lookup, if_neg h0] using h

theorem JProps.lookup_replace_ne : ∀ (fs : JProps) (k k' : String) (v : JVal),
    k' ≠ k → (fs.replace k v).lookup k' = fs.lookup k'
  | .nil, _, _, _, _ => rfl
  | .cons k0 v0 rest, k, k', v, h => by
    have hrec := JProps.lookup_replace_ne rest k k' v h
    have hk : k ≠ k' := fun hh => h hh.symm
    by_cases h0 : k0 = k
    · have hk0 : k0 ≠ k' := h0 ▸ hk
      simp only [JProps.replace, if_pos h0, JProps.lookup, if_neg hk,
        if_neg hk0, hrec]
    · simp only [JProps.replace, if_neg h0, JProps.lookup, hrec]

theorem JProps.lookup_append_of_none : ∀ (fs q : JProps) (k : String),
    fs.lookup k = none → (fs.append q).lookup k = q.lookup k
  | .nil, _, _, _ => rfl
  | .cons k0 v0 rest, q, k, h => by
    by_cases h0 : k0 = k
    · simp [JProps.lookup, if_pos h0] at h
    · simp only [JProps.append, JProps.lookup, if_neg h0] at h ⊢
      exact JProps.lookup_append_of_none rest q k h

theorem objSetF_lookup_self (fs : JProps) (k : String) (v : JVal) :
    (objSetF fs k v).lookup k = some v := by
  unfold objSetF
  by_cases h : (fs.lookup k).isSome
  · rw [if_pos h]
    exact JProps.lookup_replace_self fs k v h
  · rw [if_neg h]
    have hn : fs.lookup k = none := by
      cases hv : fs.lookup k
      · rfl
      · rw [hv] at h
        simp at h
    rw [JProps.lookup_append_of_none fs _ k hn]
    simp [JProps.lookup]

theorem JProps.lookup_append_single_ne : ∀ (fs : JProps) (k k' : String)
    (v : JVal), k' ≠ k →
    (fs.append (.cons k v .nil)).lookup k' = fs.lookup k'
  | .nil, k, k', v, h => by
    simp only [JProps.append, JProps.lookup,
      if_neg (fun hh : k = k' => h hh.symm)]
  | .cons k0 v0 rest, k, k', v, h => by
    by_cases h0' : k0 = k'
    · simp only [JProps.append, JProps.lookup, if_pos h0']
    · simp only [JProps.append, JProps.lookup, if_neg h0',
        JProps.lookup_append_single_ne rest k k' v h]

theorem objSetF_lookup_ne (fs : JProps) (k k' : String) (v : JVal)
    (h : k' ≠ k) : (objSetF fs k v).lookup k' = fs.lookup k' := by
  unfold objSetF
  by_cases hs : (fs.lookup k).isSome
  · rw [if_pos hs]
    exact JProps.lookup_replace_ne fs k k' v h
  · rw [if_neg hs]
    exact JProps.lookup_append_single_ne fs k k' v h

theorem updateManifest_obj (fs : JProps) (es : JArr) (ps : JProps)
    (dir tn ft n2 n3 : String)
    (hfiles : fs.lookup "files" = some (.arr es ps)) :
    ∃ fs1, updateManifest (.obj fs) dir tn ft n2 n3 = .ok (.obj fs1) ∧
      fs1.lookup "files" =
        some (.arr (.cons (manifestEntryJ dir tn ft n2) es) ps) ∧
      fs1.lookup "version" = some (.str (bumpVersion
        (match fs.lookup "version" with
          | none => .undef
          | some v => .val v))) ∧
      fs1.lookup "generated_at" = some (.str n3) := by
  have hget : jvalGet (.obj fs) "files" = .ok (some (.arr es ps)) := by
    simp [jvalGet, hfiles]
  unfold updateManifest
  rw [hget]
  dsimp only
  rw [hget]
  dsimp only
  set entry := manifestEntryJ dir tn ft n2 with hentry
  set fsA := objSetF fs "files" (.arr (.cons entry es) ps) with hfsA
  have hva : fsA.lookup "version" = fs.lookup "version" :=
    objSetF_lookup_ne fs "files" "version" _ (by decide)
  have hset1 : jvalSet (JVal.obj fs) "files" (.arr (.cons entry es) ps) =
      .ok (.obj fsA) := rfl
  rw [hset1]
  dsimp only
  have hgetv : jvalGet (.obj fsA) "version" = .ok (fsA.lookup "version") := rfl
  rw [hgetv]
  dsimp only
  set vstr := JVal.str (bumpVersion
    (match fsA.lookup "version" with | none => .undef | some v => .val v))
    with hvstr
  set fsB := objSetF fsA "version" vstr with hfsB
  refine ⟨objSetF fsB "generated_at" (.str n3), rfl, ?_, ?_, ?_⟩
  · rw [objSetF_lookup_ne fsB "generated_at" "files" _ (by decide),
      objSetF_lookup_ne fsA "version" "files" _ (by decide),
      objSetF_lookup_self fs "files" _]
  · rw [objSetF_lookup_ne fsB "generated_at" "version" _ (by decide),
      objSetF_lookup_self fsA "version" _, hvstr, hva]
  · rw [objSetF_lookup_self fsB "generated_at" _]

/-! ## Claim theorems -/

/-- C6: `bumpVersion` maps every defined, non-null value whose string form
(trimmed) matches `<major>` or `<major>.<minor>` (decimal digits) to
`"<major>.<minor + 1>"`, a missing minor being read as 0; it maps
`undefined`, `null` and every non-matching string to `"1.1"`; in
particular `bump("1") = "1.1"`, `bump("1.0") = "1.1"`,
`bump("2.1") = "2.2"`, `bump("not-a-number") = "1.1"` and
`bump(undefined) = "1.1"`. -/
theorem bumpVersion_props :
    (∀ v : JVal, v ≠ .null →
      ∀ maj mi, matchVersion (jsTrim (jsStringOf v)) = some (maj, mi) →
        bumpVersion (.val v) = toString maj ++ "." ++ toString (mi.getD 0 + 1)) ∧
    bumpVersion .undef = "1.1" ∧
    bumpVersion (.val .null) = "1.1" ∧
    (∀ s : String, matchVersion (jsTrim s) = none →
      bumpVersion (.val (.str s)) = "1.1") ∧
    bumpVersion (.val (.str "1")) = "1.1" ∧
    bumpVersion (.val (.str "1.0")) = "1.1" ∧
    bumpVersion (.val (.str "2.1")) = "2.2" ∧
    bumpVersion (.val (.str "not-a-number")) = "1.1" := by
  refine ⟨?_, rfl, rfl, ?_, rfl, rfl, rfl, rfl⟩
  · intro v hv maj mi h
    cases v with
    | null => exact absurd rfl hv
    | bool b => simp [bumpVersion, h]
    | num n => simp [bumpVersion, h]
    | str s => simp [bumpVersion, h]
    | arr es ps => simp [bumpVersion, h]
    | obj fs => simp [bumpVersion, h]
  · intro s h
    simp [bumpVersion, jsStringOf, h]

/-- Witness for C6 at concrete inputs: `"7.3"` bumps to `"7.4"` via the
matching branch, and the non-matching `"xyz"` falls back to `"1.1"`. -/
theorem bumpVersion_props_witness :
    bumpVersion (.val (.str "7.3")) =
      toString 7 ++ "." ++ toString ((some 3 : Option Nat).getD 0 + 1) ∧
    bumpVersion (.val (.str "xyz")) = "1.1" :=
  ⟨bumpVersion_props.1 (.str "7.3") (fun h => JVal.noConfusion h) 7 (some 3) rfl,
   bumpVersion_props.2.2.2.1 "xyz" rfl⟩

theorem manifestPhase001_default (dir tn ft n1 n2 n3 : String) :
    ∃ fs1, manifestPhase001 .notFound dir tn ft n1 n2 n3 = .ok (.obj fs1) ∧
      manifestPhase001 (.okBody (.error ())) dir tn ft n1 n2 n3 =
        .ok (.obj fs1) ∧
      fs1.lookup "files" =
        some (.arr (.cons (manifestEntryJ dir tn ft n2) .nil) .nil) ∧
      fs1.lookup "version" = some (.str "1.1") ∧
      fs1.lookup "generated_at" = some (.str n3) := by
  obtain ⟨fs1, heq, hf, hv, hg⟩ := updateManifest_obj
    (JProps.ofList [("version", .num 1), ("generated_at", .str n1),
      ("files", .arr .nil .nil)]) .nil .nil dir tn ft n2 n3 rfl
  refine ⟨fs1, ?_, ?_, hf, ?_, hg⟩
  · show (match updateManifest (defaultManifest n1) dir tn ft n2 n3 with
      | .error e => Except.error (HandlerErr.thrown e)
      | .ok v => Except.ok v) = .ok (.obj fs1)
    rw [show updateManifest (defaultManifest n1) dir tn ft n2 n3 =
      updateManifest (.obj (JProps.ofList [("version", .num 1),
        ("generated_at", .str n1), ("files", .arr .nil .nil)]))
        dir tn ft n2 n3 from rfl, heq]
  · show (match updateManifest (defaultManifest n1) dir tn ft n2 n3 with
      | .error e => Except.error (HandlerErr.thrown e)
      | .ok v => Except.ok v) = .ok (.obj fs1)
    rw [show updateManifest (defaultManifest n1) dir tn ft n2 n3 =
      updateManifest (.obj (JProps.ofList [("version", .num 1),
        ("generated_at", .str n1), ("files", .arr .nil .nil)]))
        dir tn ft n2 n3 from rfl, heq]
  · rw [hv]
    rfl

/-- C7 (counterexample): a manifest that is present and parses as the
JSON value `null` - syntactically valid JSON that fails to decode as the
expected structure - is NOT replaced by the initialized default: the
handler raises an uncaught TypeError at `contentObj.files` (part_001 line
112) and the request aborts, so a decode-class failure does reach the
caller, contradicting the claim. -/
theorem manifest_null_aborts :
    manifestPhase001 (.okBody (.ok .null)) "images" "photo.png" "" "T0" "T1"
      "T2" = .error (.thrown (.typeError
        "Cannot read properties of null (reading files)")) ∧
    ¬ ∃ v, manifestPhase001 (.okBody (.ok .null)) "images" "photo.png" ""
      "T0" "T1" "T2" = .ok v := by
  refine ⟨rfl, ?_⟩
  rintro ⟨v, hv⟩
  rw [show manifestPhase001 (.okBody (.ok .null)) "images" "photo.png" ""
      "T0" "T1" "T2" = .error (.thrown (.typeError
        "Cannot read properties of null (reading files)")) from rfl] at hv
  exact Except.noConfusion hv

/-- C7 (amended): when the manifest is absent (404) or its content is not
syntactically valid JSON, the engine proceeds with the initialized
default `{ version: 1, generated_at: now, files: [] }` (`version` the
number 1) without surfacing any error, and the append and version bump
are applied to that default, yielding `version "1.1"` and the new entry
as the single file.  (Content that parses to a non-object value such as
`null` is NOT defaulted; see the counterexample.) -/
theorem manifest_fallback_applies (dir tn ft n1 n2 n3 : String) :
    readManifestStep .notFound n1 = .ok (defaultManifest n1) ∧
    readManifestStep (.okBody (.error ())) n1 = .ok (defaultManifest n1) ∧
    ∃ fs1, manifestPhase001 .notFound dir tn ft n1 n2 n3 = .ok (.obj fs1) ∧
      manifestPhase001 (.okBody (.error ())) dir tn ft n1 n2 n3 =
        .ok (.obj fs1) ∧
      fs1.lookup "files" =
        some (.arr (.cons (manifestEntryJ dir tn ft n2) .nil) .nil) ∧
      fs1.lookup "version" = some (.str "1.1") ∧
      fs1.lookup "generated_at" = some (.str n3) :=
  ⟨rfl, rfl, manifestPhase001_default dir tn ft n1 n2 n3⟩

/-- C8: uploading `photo.png` under dir `images` with overwrite=false
against an empty manifest (absent, hence the initialized default) keeps
the candidate name (the probe 404s), and the resulting manifest has
`files[0] = { dir: "/images", name: "photo.png", path:
"/images/photo.png", type: declared-or-null, description: "",
uploaded_at: now }` and version `"1.1"`; in general every upload inserts
its entry at the front of `files` and leaves the existing entries
unchanged and in order. -/
theorem upload_prepends_entry (t : Nat) (r ft n1 n2 n3 : String) :
    resolvePath001 "images" "photo.png" false .notFound404 t r =
      .ok ("photo.png", "images/photo.png") ∧
    (∃ fs1, manifestPhase001 .notFound "images" "photo.png" ft n1 n2 n3 =
        .ok (.obj fs1) ∧
      fs1.lookup "files" = some (.arr (.cons (.obj (JProps.ofList
        [("dir", .str "/images"), ("name", .str "photo.png"),
         ("path", .str "/images/photo.png"),
         ("type", if ft = "" then JVal.null else .str ft),
         ("description", .str ""), ("uploaded_at", .str n2)])) .nil) .nil) ∧
      fs1.lookup "version" = some (.str "1.1")) ∧
    (∀ (fs0 : JProps) (es : JArr) (ps : JProps) (dir tn : String),
      fs0.lookup "files" = some (.arr es ps) →
      ∃ fs1, updateManifest (.obj fs0) dir tn ft n2 n3 = .ok (.obj fs1) ∧
        fs1.lookup "files" =
          some (.arr (.cons (manifestEntryJ dir tn ft n2) es) ps)) := by
  refine ⟨rfl, ?_, ?_⟩
  · obtain ⟨fs1, heq, heq2, hf, hv, hg⟩ :=
      manifestPhase001_default "images" "photo.png" ft n1 n2 n3
    refine ⟨fs1, heq, ?_, hv⟩
    rw [hf]
    rfl
  · intro fs0 es ps dir tn hfiles
    obtain ⟨fs1, heq, hf, hv, hg⟩ :=
      updateManifest_obj fs0 es ps dir tn ft n2 n3 hfiles
    exact ⟨fs1, heq, hf⟩

/-- Witness for C8: the general front-insertion clause applied to a
manifest whose `files` already holds one entry - the old entry is kept,
in place, behind the new one. -/
theorem upload_prepends_entry_witness :
    ∃ fs1, updateManifest (.obj (JProps.ofList
        [("version", .str "3"),
         ("files", .arr (.cons (.str "old") .nil) .nil)]))
        "docs" "a.txt" "text/plain" "T1" "T2" = .ok (.obj fs1) ∧
      fs1.lookup "files" = some (.arr
        (.cons (manifestEntryJ "docs" "a.txt" "text/plain" "T1")
          (.cons (.str "old") .nil)) .nil) :=
  (upload_prepends_entry 0 "aaaa" "text/plain" "T0" "T1" "T2").2.2
    (JProps.ofList [("version", .str "3"),
      ("files", .arr (.cons (.str "old") .nil) .nil)])
    (.cons (.str "old") .nil) .nil "docs" "a.txt" rfl

/-- C9 (counterexample): two identical non-overwrite requests for an
occupied `images/photo.png` that run in the same millisecond
(`Date.now() = 0`) and draw the same random component (`"aaaa"`) resolve
to the SAME path `images/0-aaaa-photo.png` - the "subsequent identical
request yields yet another distinct path" clause is false in this
degenerate case (the source draws no fresh name on collision of the
generated one). -/
theorem resolver_degenerate_collision :
    resolvePath001 "images" "photo.png" false .okFound 0 "aaaa" =
      .ok ("0-aaaa-photo.png", "images/0-aaaa-photo.png") ∧
    ¬ (resolvePath001 "images" "photo.png" false .okFound 0 "aaaa" ≠
       resolvePath001 "images" "photo.png" false .okFound 0 "aaaa") :=
  ⟨rfl, fun h => h rfl⟩

/-- C9 (amended): with overwrite=false, a found object renames the target
to `uniquePrefix() + "-" + finalName` - matching `<prefix>-filename` and
always different from the occupied candidate name - while a 404 probe
keeps the candidate as-is; and two such generated paths are distinct
whenever the millisecond timestamp or the equal-length random component
differs between the two requests. -/
theorem resolver_collision_avoidance (dir fn : String) (t t2 : Nat)
    (r r2 : String) :
    (∃ tn, resolvePath001 dir fn false .okFound t r = .ok (tn, dirJoin dir tn) ∧
      tn = uniquePrefixOf t r ++ "-" ++ fn ∧ tn ≠ fn) ∧
    resolvePath001 dir fn false .notFound404 t r =
      .ok (fn, dirJoin dir fn) ∧
    (r.length = r2.length → (t, r) ≠ (t2, r2) →
      resolvePath001 dir fn false .okFound t r ≠
        resolvePath001 dir fn false .okFound t2 r2) := by
  refine ⟨⟨uniquePrefixOf t r ++ "-" ++ fn, rfl, rfl, uniqueTarget_ne t r fn⟩,
    rfl, ?_⟩
  intro hlen hne heq
  have h1 : resolvePath001 dir fn false .okFound t r =
      .ok (uniquePrefixOf t r ++ "-" ++ fn,
        dirJoin dir (uniquePrefixOf t r ++ "-" ++ fn)) := rfl
  have h2 : resolvePath001 dir fn false .okFound t2 r2 =
      .ok (uniquePrefixOf t2 r2 ++ "-" ++ fn,
        dirJoin dir (uniquePrefixOf t2 r2 ++ "-" ++ fn)) := rfl
  rw [h1, h2] at heq
  injection heq with hpair
  have htn := congrArg Prod.fst hpair
  obtain ⟨ht, hr⟩ := uniqueTarget_inj t t2 r r2 fn hlen htn
  exact hne (by rw [ht, hr])

/-- Witness for C9: two requests one millisecond apart with the same
draw resolve to different paths. -/
theorem resolver_collision_avoidance_witness :
    resolvePath001 "images" "photo.png" false .okFound 0 "abcd" ≠
      resolvePath001 "images" "photo.png" false .okFound 1 "abcd" :=
  (resolver_collision_avoidance "images" "photo.png" 0 1 "abcd" "abcd").2.2
    rfl (by decide)

/-- C2: for every remote behaviour and every non-empty change-set,
part_001's `commitFilesAtomically` never returns a commit sha: the
create-tree request body names the out-of-scope identifiers `base_tree`
and `treeEntries` (line 259), so no attempt gets past that step - the
run always ends in an error, and no create-tree, create-commit or
update-ref request is ever issued. -/
theorem commit001_success_unreachable (o : Oracle) (b : String)
    (f : FileMap) (m : String) (_hf : f ≠ []) :
    (∃ e, (commitFilesAtomically001 o b f m).1 = .error e) ∧
    (∀ v, (commitFilesAtomically001 o b f m).1 ≠ Except.ok v) ∧
    (∀ bt es, GhRequest.createTree bt es ∉
      (commitFilesAtomically001 o b f m).2.trace) ∧
    (∀ ms tr ps, GhRequest.createCommit ms tr ps ∉
      (commitFilesAtomically001 o b f m).2.trace) ∧
    (∀ br flds, GhRequest.updateRef br flds ∉
      (commitFilesAtomically001 o b f m).2.trace) := by
  obtain ⟨⟨e, st', heq⟩, htr, hcnt, hsl⟩ :=
    commitLoop001_shape o b f m 2 1 initSt
  have hres : (commitFilesAtomically001 o b f m).1 = .error e := by
    show (commitLoop001 o b f m 1 2 initSt).1 = .error e
    rw [heq]
  refine ⟨⟨e, hres⟩, ?_, ?_, ?_, ?_⟩
  · intro v hv
    rw [hres] at hv
    exact Except.noConfusion hv
  · intro bt es hmem
    rcases htr _ hmem with hin | h2 | ⟨s, hs⟩ | ⟨c, en, hc⟩
    · simp [initSt] at hin
    · exact GhRequest.noConfusion h2
    · exact GhRequest.noConfusion hs
    · exact GhRequest.noConfusion hc
  · intro ms tr ps hmem
    rcases htr _ hmem with hin | h2 | ⟨s, hs⟩ | ⟨c, en, hc⟩
    · simp [initSt] at hin
    · exact GhRequest.noConfusion h2
    · exact GhRequest.noConfusion hs
    · exact GhRequest.noConfusion hc
  · intro br flds hmem
    rcases htr _ hmem with hin | h2 | ⟨s, hs⟩ | ⟨c, en, hc⟩
    · simp [initSt] at hin
    · exact GhRequest.noConfusion h2
    · exact GhRequest.noConfusion hs
    · exact GhRequest.noConfusion hc

/-- Witness for C2: against the fault-free remote, the two-entry
change-set run ends in an error and no update-ref request was issued. -/
theorem commit001_success_unreachable_witness :
    (∃ e, (commitFilesAtomically001 okOracle "main"
      [("images/a.png", FileSpec.mk "QUJD" none)] "msg").1 = .error e) ∧
    (∀ v, (commitFilesAtomically001 okOracle "main"
      [("images/a.png", FileSpec.mk "QUJD" none)] "msg").1 ≠ Except.ok v) ∧
    (∀ bt es, GhRequest.createTree bt es ∉ (commitFilesAtomically001 okOracle
      "main" [("images/a.png", FileSpec.mk "QUJD" none)] "msg").2.trace) ∧
    (∀ ms tr ps, GhRequest.createCommit ms tr ps ∉
      (commitFilesAtomically001 okOracle "main"
        [("images/a.png", FileSpec.mk "QUJD" none)] "msg").2.trace) ∧
    (∀ br flds, GhRequest.updateRef br flds ∉
      (commitFilesAtomically001 okOracle "main"
        [("images/a.png", FileSpec.mk "QUJD" none)] "msg").2.trace) :=
  commit001_success_unreachable okOracle "main"
    [("images/a.png", FileSpec.mk "QUJD" none)] "msg" (by decide)

/-- C5: for every remote behaviour, part_001's `commitFilesAtomically`
performs exactly 3 pipeline attempts (one read-ref request each), waits
`200 * attempt` ms after the first and second failed attempts (delays
`[200 * 1, 200 * 2]`), and surfaces the third attempt's error to the
caller instead of retrying further - the retry loop terminates. -/
theorem commit001_retry_bound (o : Oracle) (b : String) (f : FileMap)
    (m : String) :
    readRefCount (commitFilesAtomically001 o b f m).2.trace = 3 ∧
    (commitFilesAtomically001 o b f m).2.sleeps = [200 * 1, 200 * 2] ∧
    (∃ e, (commitFilesAtomically001 o b f m).1 = .error e) ∧
    (commitFilesAtomically001 o b f m).1 =
      (runAttempt001 o b f m (pushSleep (runAttempt001 o b f m
        (pushSleep (runAttempt001 o b f m initSt).2 (200 * 1))).2
          (200 * 2))).1 := by
  obtain ⟨⟨e, st', heq⟩, htr, hcnt, hsl⟩ :=
    commitLoop001_shape o b f m 2 1 initSt
  refine ⟨?_, ?_, ?_, ?_⟩
  · show readRefCount (commitLoop001 o b f m 1 2 initSt).2.trace = 3
    rw [hcnt]
    rfl
  · show (commitLoop001 o b f m 1 2 initSt).2.sleeps = [200 * 1, 200 * 2]
    rw [hsl]
    rfl
  · refine ⟨e, ?_⟩
    show (commitLoop001 o b f m 1 2 initSt).1 = .error e
    rw [heq]
  · obtain ⟨e1, st1, h1⟩ := (runAttempt001_shape o b f m initSt).1
    obtain ⟨e2, st2, h2⟩ :=
      (runAttempt001_shape o b f m (pushSleep st1 (200 * 1))).1
    show (commitLoop001 o b f m 1 2 initSt).1 = _
    rw [commitLoop001.eq_def, h1]
    dsimp only
    rw [commitLoop001.eq_def, h2]
    dsimp only
    norm_num
    cases h3 : runAttempt001 o b f m (pushSleep st2 400) with
    | mk r3 st3 =>
      cases r3 with
      | error e3 =>
        rw [commitLoop001.eq_def, h3]
      | ok v3 =>
        rw [commitLoop001.eq_def, h3]

/-- C4 (counterexample): against the fault-free remote the first
attempt's failure is a ReferenceError at the create-tree step - not a
ref-update Conflict; no update-ref request is ever issued - yet the
pipeline is re-run twice (three read-ref requests, sleeps 200 ms then
400 ms) instead of aborting immediately: a non-Conflict failure does NOT
cause an immediate fatal abort. -/
theorem nonconflict_failure_retried :
    (commitFilesAtomically001 okOracle "main"
      [("b.txt", FileSpec.mk "YQ" none)] "m2").1 =
      .error (.referenceError "base_tree is not defined") ∧
    readRefCount (commitFilesAtomically001 okOracle "main"
      [("b.txt", FileSpec.mk "YQ" none)] "m2").2.trace = 3 ∧
    (commitFilesAtomically001 okOracle "main"
      [("b.txt", FileSpec.mk "YQ" none)] "m2").2.sleeps = [200, 400] ∧
    (commitFilesAtomically001 okOracle "main"
      [("b.txt", FileSpec.mk "YQ" none)] "m2").2.trace =
      [.readRef "main", .readCommit "c0", .createBlob "YQ" "base64",
       .readRef "main", .readCommit "c0", .createBlob "YQ" "base64",
       .readRef "main", .readCommit "c0", .createBlob "YQ" "base64"] := by
  refine ⟨rfl, by decide, rfl, by decide⟩

/-- C4 (amended): every failure of a pipeline attempt - whatever its
kind and step - drives the retry loop: whatever error the first attempt
raises, a second attempt is started after a 200 ms delay, and the loop
runs its full 3-attempt budget before the last error is surfaced. -/
theorem commit001_retries_any_error (o : Oracle) (b : String) (f : FileMap)
    (m : String) :
    ∃ e, (runAttempt001 o b f m initSt).1 = .error e ∧
      2 ≤ readRefCount (commitFilesAtomically001 o b f m).2.trace ∧
      (commitFilesAtomically001 o b f m).2.sleeps.head? = some 200 := by
  obtain ⟨e1, st1, h1⟩ := (runAttempt001_shape o b f m initSt).1
  obtain ⟨_, _, hcnt, hsl⟩ := commitLoop001_shape o b f m 2 1 initSt
  refine ⟨e1, by rw [h1], ?_, ?_⟩
  · show 2 ≤ readRefCount (commitLoop001 o b f m 1 2 initSt).2.trace
    rw [hcnt]
    decide
  · show (commitLoop001 o b f m 1 2 initSt).2.sleeps.head? = some 200
    rw [hsl]
    rfl

/-- C1 (evaluation at the failing input): the handler's change-set for an
upload of `photo.png` to `images/` holds exactly the two intended entries
(artifact path and `content.json`), but even against a fault-free remote
part_001's `commitFilesAtomically` throws the create-tree ReferenceError
on every attempt: no commit is ever created or installed at the branch
ref (no create-commit and no update-ref request is issued), so the
handler never completes successfully and the claimed atomic installation
never takes place. -/
theorem upload_commit_never_installs :
    filesToCommit001 "images/photo.png" "QUJD" "TUFOSQ" =
      [("images/photo.png", FileSpec.mk "QUJD" none),
       ("content.json", FileSpec.mk "TUFOSQ" none)] ∧
    (commitFilesAtomically001 okOracle "main"
      (filesToCommit001 "images/photo.png" "QUJD" "TUFOSQ")
      "Upload photo.png and update content.json").1 =
      .error (.referenceError "base_tree is not defined") ∧
    (commitFilesAtomically001 okOracle "main"
      (filesToCommit001 "images/photo.png" "QUJD" "TUFOSQ")
      "Upload photo.png and update content.json").2.trace =
      [.readRef "main", .readCommit "c0", .createBlob "QUJD" "base64",
       .createBlob "TUFOSQ" "base64",
       .readRef "main", .readCommit "c0", .createBlob "QUJD" "base64",
       .createBlob "TUFOSQ" "base64",
       .readRef "main", .readCommit "c0", .createBlob "QUJD" "base64",
       .createBlob "TUFOSQ" "base64"] := by
  refine ⟨by decide, rfl, by decide⟩

/-- C3 (counterexample): in a fault-free run of part_000's
`commitFilesAtomically`, the head observed at the read-ref step is `c0`,
yet the final ref-update request's serialized body is
`[("sha", "c1")]` - it carries only the new commit id: no field of the
request states the observed parent `c0`, contradicting "the update
request states the exact expected parent the caller observed". -/
theorem updateRef_no_expected_parent :
    okOracle 0 (GhRequest.readRef "main") = GhResponse.ok (some "c0") ∧
    (commitFilesAtomically000 okOracle "main"
      [("a.png", FileSpec.mk "QUJD" none)] "msg" initSt).2.trace =
      [.readRef "main", .readCommit "c0", .createBlob "QUJD" "base64",
       .createTree (some "t0")
         [TreeEntry.mk "a.png" "100644" "blob" (some "b0")],
       .createCommit "msg" (some "t1") ["c0"],
       .updateRef "main" [("sha", "c1")]] ∧
    ¬ ∃ kv, kv ∈ [("sha", "c1")] ∧ kv.2 = "c0" := by
  refine ⟨rfl, by decide, by decide⟩

/-- C3 (amended): every ref-update request issued by part_000's
`commitFilesAtomically` targets the requested branch and its serialized
body carries the `sha` field alone (so no expected parent and no force
flag is sent - conflict detection is left to the remote's default
fast-forward rule); and every create-commit request names exactly the
observed head - the sha the read-ref step returned - as the new commit's
sole parent. -/
theorem commit000_update_request_shape (o : Oracle) (b : String)
    (f : FileMap) (m : String) :
    (∀ br flds, GhRequest.updateRef br flds ∈
        (commitFilesAtomically000 o b f m initSt).2.trace →
      br = b ∧ ∀ kv ∈ flds, kv.1 = "sha") ∧
    (∀ ms tr ps, GhRequest.createCommit ms tr ps ∈
        (commitFilesAtomically000 o b f m initSt).2.trace →
      ms = m ∧ ∃ p, ps = [p] ∧
        o 0 (GhRequest.readRef b) = GhResponse.ok (some p)) := by
  constructor
  · intro br flds hmem
    rcases commit000_trace_shape o b f m _ hmem with
      ⟨br2, h⟩ | ⟨s, h⟩ | ⟨c, en, h⟩ | ⟨bt, es, h⟩ | ⟨tr, ps, h, _⟩ |
      ⟨flds2, h, hp⟩
    · exact GhRequest.noConfusion h
    · exact GhRequest.noConfusion h
    · exact GhRequest.noConfusion h
    · exact GhRequest.noConfusion h
    · exact GhRequest.noConfusion h
    · injection h with hbr hflds
      subst hbr
      subst hflds
      exact ⟨rfl, hp⟩
  · intro ms tr ps hmem
    rcases commit000_trace_shape o b f m _ hmem with
      ⟨br2, h⟩ | ⟨s, h⟩ | ⟨c, en, h⟩ | ⟨bt, es, h⟩ | ⟨tr2, ps2, h, hp⟩ |
      ⟨flds2, h, _⟩
    · exact GhRequest.noConfusion h
    · exact GhRequest.noConfusion h
    · exact GhRequest.noConfusion h
    · exact GhRequest.noConfusion h
    · injection h with hms htr hps
      subst hms
      subst hps
      exact ⟨rfl, hp⟩
    · exact GhRequest.noConfusion h

/-- Witness for C3 (amended) at the fault-free run: the update-ref
request found in the trace targets `main` and carries only a `sha`
field. -/
theorem commit000_update_request_shape_witness :
    "main" = "main" ∧
    ∀ kv ∈ [("sha", "c1")], kv.1 = "sha" :=
  (commit000_update_request_shape okOracle "main"
    [("a.png", FileSpec.mk "QUJD" none)] "msg").1 "main" [("sha", "c1")]
    (by decide)

/-- C10 (counterexample): with the artifact PUT succeeding and the
task's manifest GET failing with a 500, the caller still receives the ok
response - but the task logs NOTHING (it silently skips the update, line
141), so this manifest-read failure is not "only logged": it is not
logged at all. -/
theorem manifest_read_failure_unlogged :
    part000Handler "nagito-hiroshima/pool" "main" "images" "p.png" "QUJD" ""
      false none (PutRes.mk true 200 "ok" none) (PutRes.mk true 200 "" none)
      0 "aaaa" (.failed 500) (PutRes.mk true 200 "" none) "T0" "T1" "T2" =
    (.ok (OkResp.mk "images/p.png" "p.png"
        "https://raw.githubusercontent.com/nagito-hiroshima/pool/main/images/p.png"
        (.inl "ok")),
      some (TaskOut.mk [] none),
      [.contentsPut "images/p.png"
        [("message", "Upload p.png via moenaigomi.com"),
         ("content", "QUJD"), ("branch", "main")]]) := rfl

/-- C10 (amended): the artifact is committed by its own Contents-API PUT
and the `content.json` update runs as a detached task started only after
that PUT succeeded; the HTTP response never depends on the task's
outcome (the caller receives `{ ok: true, path, ... }` even when the
manifest was never updated); inside the task a failed manifest write or
a thrown error is only logged, while a non-404 manifest read failure
silently skips the update; and when both writes succeed they are two
separate Contents-API PUTs - one commit for the artifact, one for the
manifest - never a single combined commit. -/
theorem part000_detached_manifest (repo branch dir fn b64 ft : String)
    (ow : Bool) (shaOv : Option String) (put1 put2 : PutRes) (t : Nat)
    (r : String) (g g2 : MGet) (tp tp2 : PutRes) (n1 n2 n3 : String) :
    ((part000Handler repo branch dir fn b64 ft ow shaOv put1 put2 t r
        g tp n1 n2 n3).1 =
      (part000Handler repo branch dir fn b64 ft ow shaOv put1 put2 t r
        g2 tp2 n1 n2 n3).1) ∧
    (put1.ok = true →
      (part000Handler repo branch dir fn b64 ft ow shaOv put1 put2 t r
        g tp n1 n2 n3).1 =
        .ok (OkResp.mk (dirJoin dir fn) fn
          ("https://raw.githubusercontent.com/" ++ repo ++ "/" ++ branch ++
            "/" ++ dirJoin dir fn) (safeJSONOf put1))) ∧
    (∀ s tn, part000Task (.failed s) tp dir tn ft branch n1 n2 n3 =
      TaskOut.mk [] none) ∧
    (∀ sh pr tn e,
      updateManifest (match pr with
        | .ok v => v
        | .error _ => defaultManifest n1) dir tn ft n2 n3 = .error e →
      part000Task (.ok sh pr) tp dir tn ft branch n1 n2 n3 =
        TaskOut.mk ["content.json update error: " ++ jsErrMessage e] none) ∧
    (∀ sh pr tn newObj, tp.ok = false →
      updateManifest (match pr with
        | .ok v => v
        | .error _ => defaultManifest n1) dir tn ft n2 n3 = .ok newObj →
      ∃ flds, part000Task (.ok sh pr) tp dir tn ft branch n1 n2 n3 =
        TaskOut.mk ["content.json update failed: " ++ toString tp.status]
          (some (.contentsPut "content.json" flds))) ∧
    (∀ sh pr newObj, put1.ok = true → tp.ok = true →
      updateManifest (match pr with
        | .ok v => v
        | .error _ => defaultManifest n1) dir fn ft n2 n3 = .ok newObj →
      ∃ flds1 flds2,
        (part000Handler repo branch dir fn b64 ft ow shaOv put1 put2 t r
          (.ok sh pr) tp n1 n2 n3).2.2 =
          [.contentsPut (dirJoin dir fn) flds1,
           .contentsPut "content.json" flds2]) := by
  have hphase : ∀ hok : put1.ok = true,
      part000ArtifactPhase repo branch dir fn b64 ow shaOv put1 put2 t r =
      (.ok (OkResp.mk (dirJoin dir fn) fn
        ("https://raw.githubusercontent.com/" ++ repo ++ "/" ++ branch ++
          "/" ++ dirJoin dir fn) (safeJSONOf put1)), fn, [GhRequest.contentsPut
            (dirJoin dir fn)
            ([("message", "Upload " ++ fn ++ " via moenaigomi.com"),
              ("content", b64), ("branch", branch)] ++ shaField shaOv)]) := by
    intro hok
    unfold part000ArtifactPhase
    simp only [hok, Bool.not_true, Bool.false_and,
      if_neg (by decide : ¬ (false : Bool) = true)]
  have htask : ∀ (sh : Option String) (pr : Except Unit JVal) (tn : String),
      part000Task (.ok sh pr) tp dir tn ft branch n1 n2 n3 =
      (match updateManifest (match pr with
          | .ok v => v
          | .error _ => defaultManifest n1) dir tn ft n2 n3 with
        | .error e =>
          TaskOut.mk ["content.json update error: " ++ jsErrMessage e] none
        | .ok newObj =>
          let flds :=
            [("message", "Update content.json: add " ++ entryPathOf dir tn),
             ("content", base64FromBytes (utf8Bytes (stringifyPretty newObj))),
             ("branch", branch)] ++ shaField sh
          if tp.ok then TaskOut.mk [] (some (.contentsPut "content.json" flds))
          else TaskOut.mk
            ["content.json update failed: " ++ toString tp.status]
            (some (.contentsPut "content.json" flds))) := by
    intro sh pr tn
    cases pr with
    | ok v => rfl
    | error u => rfl
  refine ⟨?_, ?_, ?_, ?_, ?_, ?_⟩
  · rcases hp : part000ArtifactPhase repo branch dir fn b64 ow shaOv put1
        put2 t r with ⟨resp, tn2, reqs⟩
    simp only [part000Handler.eq_def, hp]
    cases resp with
    | error e => rfl
    | ok resp0 => rfl
  · intro hok
    rw [part000Handler.eq_def, hphase hok]
  · intro s tn
    rfl
  · intro sh pr tn e hup
    rw [htask sh pr tn, hup]
  · intro sh pr tn newObj htp hup
    refine ⟨[("message", "Update content.json: add " ++ entryPathOf dir tn),
      ("content", base64FromBytes (utf8Bytes (stringifyPretty newObj))),
      ("branch", branch)] ++ shaField sh, ?_⟩
    rw [htask sh pr tn, hup]
    simp [htp]
  · intro sh pr newObj hok htp hup
    rw [part000Handler.eq_def, hphase hok]
    dsimp only
    rw [htask sh pr fn, hup]
    simp only [htp, if_true]
    exact ⟨_, _, rfl⟩

/-- Witness for C10 (amended) on a concrete run: the ok response after a
successful artifact PUT; a thrown TypeError inside the task (null
manifest) that is only logged; and, when everything succeeds, exactly
the two separate Contents-API PUT requests. -/
theorem part000_detached_manifest_witness :
    (part000Handler "repo0" "main" "images" "p.png" "QUJD" "" false none
      (PutRes.mk true 200 "ok" none) (PutRes.mk true 200 "" none) 0 "aaaa"
      (.ok none (.ok .null)) (PutRes.mk true 200 "" none)
      "T0" "T1" "T2").1 =
      .ok (OkResp.mk "images/p.png" "p.png"
        "https://raw.githubusercontent.com/repo0/main/images/p.png"
        (.inl "ok")) ∧
    part000Task (.ok none (.ok .null)) (PutRes.mk true 200 "" none)
      "images" "p.png" "" "main" "T0" "T1" "T2" =
      TaskOut.mk
        ["content.json update error: Cannot read properties of null (reading files)"]
        none ∧
    ∃ flds1 flds2,
      (part000Handler "repo0" "main" "images" "p.png" "QUJD" "" false none
        (PutRes.mk true 200 "ok" none) (PutRes.mk true 200 "" none) 0 "aaaa"
        (.ok none (.error ())) (PutRes.mk true 200 "" none)
        "T0" "T1" "T2").2.2 =
        [.contentsPut "images/p.png" flds1,
         .contentsPut "content.json" flds2] := by
  have h := part000_detached_manifest "repo0" "main" "images" "p.png" "QUJD"
    "" false none (PutRes.mk true 200 "ok" none) (PutRes.mk true 200 "" none)
    0 "aaaa" (.ok none (.ok .null)) (.failed 500)
    (PutRes.mk true 200 "" none) (PutRes.mk true 200 "" none) "T0" "T1" "T2"
  obtain ⟨fs1, hup, _, _, _⟩ := updateManifest_obj
    (JProps.ofList [("version", .num 1), ("generated_at", .str "T0"),
      ("files", .arr .nil .nil)]) .nil .nil "images" "p.png" "" "T1" "T2" rfl
  refine ⟨h.2.1 rfl, ?_, ?_⟩
  · exact h.2.2.2.1 none (.ok .null) "p.png"
      (.typeError "Cannot read properties of null (reading files)") rfl
  · exact h.2.2.2.2.2 none (.error ()) (.obj fs1) rfl rfl hup
